import Mathlib

/-!
Verification development for the metrics-report incremental synchronization
core.  The Python modules `sheets.py`, `customers.py`, `shopify.py`,
`pipeline.py`, `dates.py` and `webhook_db.py` are shallowly embedded below:
pure functions become Lean functions, the tabular store and the sqlite
database become explicit values threaded through the functions, Python
floats are modelled as exact rationals (with the IEEE specials NaN/±Inf as
separate constructors of the cell type), and fallible code returns
`Option`/`Except`.
-/

attribute [local semireducible] Rat.add Rat.mul Rat.inv Rat.sub Rat.ofScientific

/-- A spreadsheet / JSON cell value as delivered by the external store:
text, integers, floating-point numbers (modelled exactly as rationals,
with NaN/±Inf as separate constructors), booleans, or absence (`None`). -/
inductive Cell where
  | empty
  | str (s : String)
  | int (n : Int)
  | float (q : ℚ)
  | nan
  | inf
  | ninf
  | boolean (b : Bool)
deriving DecidableEq, Repr

/-- The whitespace characters stripped by Python `str.strip()`
(space, tab, newline, carriage return, vertical tab, form feed). -/
def isPySpace (c : Char) : Bool :=
  c == ' ' || c == '\t' || c == '\n' || c == '\r' || c.val == 11 || c.val == 12

/-- Python `str.strip()` on a character list: drop whitespace from both ends. -/
def pyStripList (cs : List Char) : List Char :=
  ((cs.dropWhile isPySpace).reverse.dropWhile isPySpace).reverse

/-- Python `str.strip()`. -/
def pyStrip (s : String) : String := ⟨pyStripList s.data⟩

/-- The regular expression `^\d{4}-\d{2}-\d{2}$` (`_YMD_RE` in `sheets.py`
and `dates.py`). -/
def isYmdShapeList : List Char → Bool
  | [y1, y2, y3, y4, h1, m1, m2, h2, d1, d2] =>
    y1.isDigit && y2.isDigit && y3.isDigit && y4.isDigit && h1 == '-' &&
    m1.isDigit && m2.isDigit && h2 == '-' && d1.isDigit && d2.isDigit
  | _ => false

/-- Decimal value of a digit string (used for the captured regex groups). -/
def digitsToNat (cs : List Char) : Nat :=
  cs.foldl (fun a c => a * 10 + (c.toNat - 48)) 0

/-- The regular expression `_DMY_RE` in `sheets.py`: one or two digits, a
slash-or-dash separator, one or two digits, a separator, exactly four
digits, anchored at both ends; on success returns the `(d, m, y)` groups. -/
def parseDMYList (cs : List Char) : Option (Nat × Nat × Nat) :=
  let ds := cs.takeWhile Char.isDigit
  if ds.length = 0 ∨ 2 < ds.length then none
  else
    match cs.drop ds.length with
    | sep1 :: rest1 =>
      if sep1 = '/' ∨ sep1 = '-' then
        let ms := rest1.takeWhile Char.isDigit
        if ms.length = 0 ∨ 2 < ms.length then none
        else
          match rest1.drop ms.length with
          | sep2 :: rest2 =>
            if sep2 = '/' ∨ sep2 = '-' then
              let ys := rest2.takeWhile Char.isDigit
              if ys.length = 4 ∧ rest2.drop 4 = [] then
                some (digitsToNat ds, digitsToNat ms, digitsToNat ys)
              else none
            else none
          | [] => none
      else none
    | [] => none

/-- A calendar date, kept in the `(year, month, day)` form that Python's
`datetime.date` exposes. -/
structure Ymd where
  year : Nat
  month : Nat
  day : Nat
deriving DecidableEq, Repr

/-- Gregorian leap year test. -/
def isLeapYear (y : Nat) : Bool :=
  y % 4 == 0 && (y % 100 != 0 || y % 400 == 0)

/-- Number of days in a month of a given year. -/
def daysInMonth (y m : Nat) : Nat :=
  if m = 2 then (if isLeapYear y then 29 else 28)
  else if m = 4 ∨ m = 6 ∨ m = 9 ∨ m = 11 then 30
  else 31

/-- Month/day ranges of a well-formed date (what `datetime.date` enforces
beyond the year range). -/
def Ymd.okMD (t : Ymd) : Bool :=
  1 ≤ t.month && t.month ≤ 12 && 1 ≤ t.day && t.day ≤ daysInMonth t.year t.month

/-- A date accepted by Python's `datetime.date(y, m, d)` constructor. -/
def Ymd.ok (t : Ymd) : Bool :=
  1 ≤ t.year && t.year ≤ 9999 && t.okMD

/-- The day after `t` (Python `t + timedelta(days=1)`), rolling months and
years. -/
def Ymd.next (t : Ymd) : Ymd :=
  if t.day < daysInMonth t.year t.month then ⟨t.year, t.month, t.day + 1⟩
  else if t.month < 12 then ⟨t.year, t.month + 1, 1⟩
  else ⟨t.year + 1, 1, 1⟩

/-- `t + timedelta(days=n)` for a non-negative day count. -/
def Ymd.addNat (t : Ymd) : Nat → Ymd
  | 0 => t
  | n + 1 => (t.addNat n).next

/-- Fixed-width zero-padded decimal digits, as produced by
`date.isoformat()` for the month/day fields. -/
def pad2 (n : Nat) : List Char :=
  [Nat.digitChar (n / 10 % 10), Nat.digitChar (n % 10)]

/-- Fixed-width zero-padded decimal digits for the year field. -/
def pad4 (n : Nat) : List Char :=
  [Nat.digitChar (n / 1000 % 10), Nat.digitChar (n / 100 % 10),
   Nat.digitChar (n / 10 % 10), Nat.digitChar (n % 10)]

/-- Python `date.isoformat()`: `YYYY-MM-DD` with zero padding. -/
def Ymd.iso (t : Ymd) : String :=
  ⟨pad4 t.year ++ '-' :: (pad2 t.month ++ '-' :: pad2 t.day)⟩

/-- Truncation toward zero, Python `int(float)`. -/
def pyTrunc (q : ℚ) : ℤ := if 0 ≤ q then ⌊q⌋ else ⌈q⌉

/-- `_sheets_serial_to_date` in `sheets.py`: Google Sheets date serials are
days since 1899-12-30; non-positive day counts are rejected and so is any
result past `date.max` (year 9999), where Python raises `OverflowError`
which the source catches and maps to `None`. -/
def sheetsSerialToDate (days : ℤ) : Option Ymd :=
  if days ≤ 0 then none
  else
    let t := Ymd.addNat ⟨1899, 12, 30⟩ days.toNat
    if 9999 < t.year then none else some t

/-- The serial branch of `_coerce_cell_to_ymd`, returning the ISO string. -/
def serialToIso (days : ℤ) : Option String :=
  (sheetsSerialToDate days).map Ymd.iso

/-- `_coerce_cell_to_ymd` in `sheets.py`: normalize a heterogeneous cell to
an ISO `YYYY-MM-DD` string.  Strings are stripped and matched against the
ISO shape, then the `D/M/YYYY` locale shape (validated through
`datetime.date`, invalid dates yielding `None`), then a length-≥10 ISO-shaped
prefix; `int`/`float` cells go through the sheet date-serial convention
(Python treats `bool` as an `int` here, and `int()` truncates floats toward
zero; `int(nan)`/`int(inf)` raise and give `None`). -/
def coerceYmd : Cell → Option String
  | .str s =>
    let t := pyStripList s.data
    if t.isEmpty then none
    else if isYmdShapeList t then some ⟨t⟩
    else
      match parseDMYList t with
      | some (d, m, y) =>
        if Ymd.ok ⟨y, m, d⟩ then some (Ymd.iso ⟨y, m, d⟩) else none
      | none =>
        if 10 ≤ t.length ∧ isYmdShapeList (t.take 10) then some ⟨t.take 10⟩
        else none
  | .int n => serialToIso n
  | .float q => serialToIso (pyTrunc q)
  | .boolean b => serialToIso (if b then 1 else 0)
  | .nan => none
  | .inf => none
  | .ninf => none
  | .empty => none

/-- Result of Python's `float(str)`: a finite value, or one of the IEEE
specials (`float("nan")`, `float("inf")`, `float("-inf")`). -/
inductive FloatVal where
  | finite (q : ℚ)
  | fnan
  | finfinite (neg : Bool)
deriving DecidableEq, Repr

/-- Lower-cased copy of a character list (for the case-insensitive special
float words). -/
def lowerList (cs : List Char) : List Char := cs.map Char.toLower

/-- Exponent suffix of a Python float literal. -/
def pyFloatExponent (signed : ℚ) (r3 : List Char) : Option FloatVal :=
  let eneg := r3.head? = some '-'
  let edigs := if r3.head? = some '+' ∨ r3.head? = some '-' then r3.tail else r3
  if edigs.length = 0 ∨ ¬ edigs.all Char.isDigit then none
  else
    let ex := digitsToNat edigs
    some (.finite (if eneg then signed / (10 : ℚ) ^ ex else signed * (10 : ℚ) ^ ex))

/-- The decimal-literal part of `float(str)`:
`digits [. digits] [e|E [sign] digits]`, at least one mantissa digit. -/
def pyFloatNumeric (neg : Bool) (body : List Char) : Option FloatVal :=
  let intPart := body.takeWhile Char.isDigit
  let rest1 := body.drop intPart.length
  let fracPart := if rest1.head? = some '.' then rest1.tail.takeWhile Char.isDigit else []
  let rest2 :=
    if rest1.head? = some '.' then
      rest1.tail.drop (rest1.tail.takeWhile Char.isDigit).length
    else rest1
  if intPart.length = 0 ∧ fracPart.length = 0 then none
  else
    let mant : ℚ := (digitsToNat (intPart ++ fracPart) : ℚ) / ((10 : ℚ) ^ fracPart.length)
    let signed : ℚ := if neg then -mant else mant
    match rest2 with
    | [] => some (.finite signed)
    | e :: r3 => if e = 'e' ∨ e = 'E' then pyFloatExponent signed r3 else none

/-- The part of `float(str)` after the optional leading sign. -/
def pyFloatBody (neg : Bool) (body : List Char) : Option FloatVal :=
  let low := lowerList body
  if low = "inf".data ∨ low = "infinity".data then some (.finfinite neg)
  else if low = "nan".data then some .fnan
  else pyFloatNumeric neg body

/-- Python `float(str)` on an already-stripped string, modelled over exact
rationals: optional sign; the words `inf`/`infinity`/`nan` (case
insensitive); otherwise a decimal literal `digits [. digits] [e|E [sign]
digits]` with at least one mantissa digit.  Underscored literals (PEP 515)
are not modelled. -/
def pyFloatOfString (cs : List Char) : Option FloatVal :=
  if cs.head? = some '+' then pyFloatBody false cs.tail
  else if cs.head? = some '-' then pyFloatBody true cs.tail
  else pyFloatBody false cs

/-- `_coerce_cell_to_number` in `sheets.py`: `None` and `bool` are rejected;
numeric cells are accepted unless NaN/±Inf; strings are stripped, every `,`
replaced by `.`, and parsed with `float`, again rejecting NaN/±Inf.
(The unmodelled corner: `float(int)` overflow past 1.8e308 raises in
Python and yields `None`; integers are exact here.) -/
def coerceNumber : Cell → Option ℚ
  | .empty => none
  | .boolean _ => none
  | .int n => some (n : ℚ)
  | .float q => some q
  | .nan => none
  | .inf => none
  | .ninf => none
  | .str s =>
    let t := pyStripList s.data
    if t.isEmpty then none
    else
      match pyFloatOfString (t.map (fun c => if c = ',' then '.' else c)) with
      | some (.finite q) => some q
      | _ => none

/-- The character class kept by `_coerce_float`'s
`re.sub` filter: digits, comma, dot, minus. -/
def keptFloatChar (c : Char) : Bool :=
  c.isDigit || c == ',' || c == '.' || c == '-'

/-- `_coerce_float` in `customers.py`: `bool`/`None` rejected; numeric cells
accepted unless NaN (note: ±Inf is NOT rejected here, unlike
`_coerce_cell_to_number`); strings are stripped, filtered down to
digits/separators/minus, rejected when empty or a lone separator; when both
`.` and `,` survive, `,` is assumed to be a thousands separator and removed;
when only `,` survives it becomes the decimal dot; then `float`. -/
def coerceFloat : Cell → Option FloatVal
  | .empty => none
  | .boolean _ => none
  | .int n => some (.finite (n : ℚ))
  | .float q => some (.finite q)
  | .nan => none
  | .inf => some (.finfinite false)
  | .ninf => some (.finfinite true)
  | .str s =>
    let t := pyStripList s.data
    if t.isEmpty then none
    else
      let cleaned := t.filter keptFloatChar
      if cleaned = [] ∨ cleaned = ['-'] ∨ cleaned = ['.'] ∨ cleaned = [','] then none
      else
        let cleaned2 :=
          if cleaned.contains '.' ∧ cleaned.contains ',' then cleaned.filter (· ≠ ',')
          else if cleaned.contains ',' ∧ ¬ cleaned.contains '.' then
            cleaned.map (fun c => if c = ',' then '.' else c)
          else cleaned
        match pyFloatOfString cleaned2 with
        | some v => some v
        | none => none

/-- Projection of `_coerce_float` used when folding sheet cells into the
customer aggregates; infinite cell values fall outside the rational model
and cannot arise from the sheet write path. -/
def coerceFloatFin (c : Cell) : Option ℚ :=
  match coerceFloat c with
  | some (.finite q) => some q
  | _ => none

/-- Python `int(str)` on an already-filtered string: optional sign then
decimal digits only. -/
def pyIntOfString (cs : List Char) : Option ℤ :=
  match cs with
  | '+' :: r => if r.length ≠ 0 ∧ r.all Char.isDigit then some (digitsToNat r : ℤ) else none
  | '-' :: r => if r.length ≠ 0 ∧ r.all Char.isDigit then some (-(digitsToNat r : ℤ)) else none
  | r => if r.length ≠ 0 ∧ r.all Char.isDigit then some (digitsToNat r : ℤ) else none

/-- `_coerce_int` in `customers.py`: `bool`/`None` rejected; ints as-is;
floats truncated toward zero unless NaN (`int(±inf)` raises uncaught in the
source — outside this model, mapped to `none`); strings are stripped, every
character other than digits and `-` removed, the remainder rejected when
empty or a lone `-` and otherwise parsed with `int` (a non-leading `-`
survives the filter and makes `int` fail). -/
def coerceIntCu : Cell → Option ℤ
  | .empty => none
  | .boolean _ => none
  | .int n => some n
  | .float q => some (pyTrunc q)
  | .nan => none
  | .inf => none
  | .ninf => none
  | .str s =>
    let t := pyStripList s.data
    if t.isEmpty then none
    else
      let digits := t.filter (fun c => c.isDigit || c == '-')
      if digits = [] ∨ digits = ['-'] then none
      else pyIntOfString digits

/-- Python `round(float)` (no digits argument): round half to even,
returning an integer. -/
def pyRound (q : ℚ) : ℤ :=
  let f := ⌊q⌋
  let r := q - (f : ℚ)
  if r < 1/2 then f
  else if 1/2 < r then f + 1
  else if f % 2 = 0 then f else f + 1

/-- Python `round(x, 6)`: round half to even at the sixth decimal. -/
def pyRound6 (q : ℚ) : ℚ := ((pyRound (q * 1000000) : ℚ)) / 1000000

/-- `_round_half_away_from_zero` in `shopify.py`:
`int(math.floor(v + 0.5))` for non-negative `v`, `int(math.ceil(v - 0.5))`
otherwise. -/
def roundHAZ (q : ℚ) : ℤ :=
  if 0 ≤ q then ⌊q + 1/2⌋ else ⌈q - 1/2⌉

/-- The `fmt` helper inside `consolidate_sum_by_date`: when the value is
within 1e-9 of an integer, write that integer, else the raw value. -/
def fmtCell (q : ℚ) : Cell :=
  if |q - (pyRound q : ℚ)| < 1/1000000000 then .int (pyRound q) else .float q

/-- `parse_ymd` in `dates.py`: anchor on `^\d{4}-\d{2}-\d{2}$` and build the
date from the three fields.  (For a shape-valid but impossible date such as
`2025-13-40`, `datetime.date` raises uncaught in the source; all uses below
are restricted to valid dates.) -/
def parseYmd (s : String) : Option Ymd :=
  match s.data with
  | [y1, y2, y3, y4, '-', m1, m2, '-', d1, d2] =>
    if [y1, y2, y3, y4, m1, m2, d1, d2].all Char.isDigit then
      some ⟨digitsToNat [y1, y2, y3, y4], digitsToNat [m1, m2], digitsToNat [d1, d2]⟩
    else none
  | _ => none

/-- Day number of a civil date (days since 1970-01-01, Howard Hinnant's
`days_from_civil`).  This models Python's `date` subtraction:
`(a - b).days = rataDie a - rataDie b`. -/
def rataDie (t : Ymd) : ℤ :=
  let y : ℤ := if t.month ≤ 2 then (t.year : ℤ) - 1 else (t.year : ℤ)
  let era : ℤ := Int.fdiv y 400
  let yoe : ℤ := y - era * 400
  let mp : ℤ := if 2 < t.month then (t.month : ℤ) - 3 else (t.month : ℤ) + 9
  let doy : ℤ := (153 * mp + 2) / 5 + (t.day : ℤ) - 1
  let doe : ℤ := yoe * 365 + yoe / 4 - yoe / 100 + doy
  era * 146097 + doe - 719468

/-- Python `date` comparison (lexicographic on year, month, day). -/
def Ymd.lt (a b : Ymd) : Bool :=
  Nat.blt a.year b.year ||
    (a.year == b.year &&
      (Nat.blt a.month b.month || (a.month == b.month && Nat.blt a.day b.day)))

/-- `daterange_inclusive` in `dates.py`: empty when `end < start`, else the
`(end - start).days + 1` consecutive days from `start`. -/
def dateRangeInclusive (s e : Ymd) : List Ymd :=
  if Ymd.lt e s then []
  else (List.range ((rataDie e - rataDie s) + 1).toNat).map s.addNat

/-- Python string comparison `a < b` on character lists: lexicographic by
code point. -/
def pyStrLtL : List Char → List Char → Bool
  | [], [] => false
  | [], _ :: _ => true
  | _ :: _, [] => false
  | a :: as, b :: bs =>
    if a.toNat < b.toNat then true else if b.toNat < a.toNat then false else pyStrLtL as bs

/-- Python string comparison `a < b`. -/
def pyStrLt (a b : String) : Bool := pyStrLtL a.data b.data

/-- Python string comparison `a <= b` (total order, so `¬ (b < a)`). -/
def pyStrLe (a b : String) : Bool := ! pyStrLt b a

/-- Python `max(iterable)` over strings (`None` for an empty list): the
running maximum starting from the first element, later elements replacing
it only when strictly greater. -/
def listMax (l : List String) : Option String :=
  match l with
  | [] => none
  | x :: xs => some (xs.foldl (fun a b => if pyStrLt a b then b else a) x)

/-! ## Duplicate consolidation (`GoogleSheetsClient.consolidate_sum_by_date`)

The store state relevant to one consolidation pass is the date column and
the designated sum columns, each as returned by a `get_values` column read:
a list of per-row cell lists (an empty inner list standing for an empty
row, mirroring `date_values[row_idx][0] if ... and date_values[row_idx]
else None`). -/

/-- A consolidation view of a table: the date column and the sum columns. -/
structure ConsTable where
  dateCol : List (List Cell)
  sumCols : List (List (List Cell))
deriving DecidableEq, Repr

/-- Cell of a column response at a data row:
`col[r][0] if r < len(col) and col[r] else None`. -/
def colCell (col : List (List Cell)) (r : Nat) : Cell :=
  match col.get? r with
  | some (c :: _) => c
  | _ => .empty

/-- `data_rows = max([len(date_values)] + [len(col) for col in sum_values])`. -/
def consDataRows (t : ConsTable) : Nat :=
  (t.sumCols.map List.length).foldl max t.dateCol.length

/-- The coerced date of one data row. -/
def consRowYmd (t : ConsTable) (r : Nat) : Option String :=
  coerceYmd (colCell t.dateCol r)

/-- The coerced dates of all data rows in row order (the multiset whose
multiplicities are the `occurrences` dict of the source). -/
def consCoerced (t : ConsTable) : List String :=
  (List.range (consDataRows t)).filterMap (consRowYmd t)

/-- The distinct coerced dates, first occurrence first
(the key set of `occurrences`/`totals`). -/
def consDistinct (t : ConsTable) : List String :=
  (consCoerced t).dedup

/-- `duplicates_removed = sum(count - 1 for count in occurrences.values()
if count > 1)`; counts of 1 contribute 0 either way. -/
def consRemoved (t : ConsTable) : Nat :=
  ((consDistinct t).map (fun d => (consCoerced t).count d - 1)).sum

/-- The accumulated total of one sum column over the rows of one date group
(`acc[col_idx] += number` for every coercible cell; non-coercible cells
contribute nothing). -/
def consTotal (t : ConsTable) (d : String) (col : List (List Cell)) : ℚ :=
  ((List.range (consDataRows t)).filter (fun r => consRowYmd t r = some d)).foldl
    (fun acc r => acc + ((coerceNumber (colCell col r)).getD 0)) 0

/-- `sorted(totals.keys())`. -/
def consSorted (t : ConsTable) : List String :=
  List.insertionSort (fun a b => pyStrLe a b = true) (consDistinct t)

/-- `consolidate_sum_by_date`, store side effects made explicit: returns
the reported eliminated-row count together with the rewritten table when a
write happens (`none` = the batch update is not issued).  The write covers
rows 2..`data_rows`+1 of each involved column: the sorted distinct dates
(resp. the formatted group totals), padded with blank cells. -/
def consolidate (t : ConsTable) : Nat × Option ConsTable :=
  let n := consDataRows t
  if n = 0 then (0, none)
  else
    let removed := consRemoved t
    if removed = 0 then (0, none)
    else
      let sorted := consSorted t
      let rtw := min sorted.length n
      let pad := n - rtw
      let newDate := (sorted.take rtw).map (fun d => [Cell.str d]) ++
        List.replicate pad [Cell.str ""]
      let newSums := t.sumCols.map (fun col =>
        (sorted.take rtw).map (fun d => [fmtCell (consTotal t d col)]) ++
        List.replicate pad [Cell.str ""])
      (removed, some ⟨newDate, newSums⟩)

/-! ## Watermark lookup (`GoogleSheetsClient.get_max_ymd_in_column`) -/

/-- Result record of `get_max_ymd_in_column`. -/
structure MaxDateResult where
  header : List String
  dateColumn : String
  maxDate : Option String
deriving DecidableEq, Repr

/-- `get_max_ymd_in_column`: the header row is read from the store; the
date column is the first header cell exactly equal to one of the
candidates; its data rows (`letter2:letter`) are read through `getCol`
(the store read, indexed by the found column), empty response rows are
skipped (`for row in values if row`), every remaining first cell is
coerced, and the maximum coerced date (string order on ISO dates) is
returned, `none` when nothing coerces.  A missing header row or an
unmatched candidate list raises `ValueError` (modelled as `.error`). -/
def getMaxYmdInColumn (header : List String) (getCol : Nat → List (List Cell))
    (dateHeaders : List String) : Except String MaxDateResult :=
  if header.isEmpty then .error "sheet has no header row"
  else
    match header.findIdx? (fun h => dateHeaders.contains h) with
    | none =>
      .error ("sheet missing date header (expected one of: " ++
        String.intercalate ", " dateHeaders ++ ")")
    | some i =>
      let rawValues := (getCol i).filterMap List.head?
      let dates := rawValues.filterMap coerceYmd
      .ok ⟨header, header.getD i "", listMax dates⟩

/-! ## Shopify money extraction (`shopify.py`) -/

/-- A `shopMoney` JSON object: the recorded amount string and currency.
A missing or empty (falsy) wrapper dict on the order is modelled as the
order field being `none`. -/
structure ShopMoney where
  amount : Option String
  currencyCode : Option String
deriving DecidableEq, Repr

/-- Customer sub-object of an order. -/
structure CustomerInfo where
  email : Option String
  displayName : Option String
  firstName : Option String
  lastName : Option String
  phone : Option String
  numberOfOrders : Option Cell
deriving DecidableEq, Repr

/-- A Shopify order node, restricted to the fields the engine reads. -/
structure Order where
  createdAt : Option String
  email : Option String
  phone : Option String
  customer : Option CustomerInfo
  totalPriceSet : Option ShopMoney
  currentTotalPriceSet : Option ShopMoney
  subtotalPriceSet : Option ShopMoney
  currentSubtotalPriceSet : Option ShopMoney
  currentTotalDiscountsSet : Option ShopMoney
  totalDiscountsSet : Option ShopMoney
  shippingAddressPhone : Option String
  billingAddressPhone : Option String
deriving DecidableEq, Repr

/-- An empty Order (all fields absent), base value for building test data. -/
def Order.none0 : Order :=
  ⟨none, none, none, none, none, none, none, none, none, none, none, none⟩

/-- `float(money.get("amount") or 0)`: a missing or empty amount string is
the falsy case and gives 0; a parse failure raises `(TypeError, ValueError)`
which the source catches to 0; IEEE specials fall outside the rational
model and are mapped to 0 here (they cannot appear in Shopify amounts). -/
def moneyAmount (m : ShopMoney) : ℚ :=
  match m.amount with
  | none => 0
  | some s =>
    if s = "" then 0
    else
      match pyFloatOfString s.data with
      | some (.finite q) => q
      | _ => 0

/-- `str(money.get("currencyCode") or "CLP")`. -/
def moneyCurrency (m : ShopMoney) : String :=
  match m.currencyCode with
  | none => "CLP"
  | some c => if c = "" then "CLP" else c

/-- `_pick_money` in `shopify.py`: the first present money set in the
source's `or`-chain order — `totalPriceSet`, `currentTotalPriceSet`,
`subtotalPriceSet`, `currentSubtotalPriceSet` — else `(0.0, "CLP")`. -/
def pickMoney (o : Order) : ℚ × String :=
  match o.totalPriceSet.orElse (fun _ => o.currentTotalPriceSet) |>.orElse
      (fun _ => o.subtotalPriceSet) |>.orElse (fun _ => o.currentSubtotalPriceSet) with
  | none => (0, "CLP")
  | some m => (moneyAmount m, moneyCurrency m)

/-- `_pick_discount_amount` in `customers.py`: `currentTotalDiscountsSet`
preferred over `totalDiscountsSet`; missing/unparseable gives 0. -/
def pickDiscountAmount (o : Order) : ℚ :=
  match o.currentTotalDiscountsSet.orElse (fun _ => o.totalDiscountsSet) with
  | none => 0
  | some m => moneyAmount m

/-- `net_units = (amount - float(fixed_deduction_per_order)) / float(vat_factor)`
at `customers.py:347`, with the gross amount from `_pick_money`. -/
def netUnits (o : Order) (fixedDeduction vatFactor : ℚ) : ℚ :=
  ((pickMoney o).1 - fixedDeduction) / vatFactor

/-! ## Webhook idempotency store (`webhook_db.py`)

The `seen_carts` sqlite table is modelled as its list of
`(cart_token, date)` rows; the `cart_token PRIMARY KEY` uniqueness
constraint makes a conflicting `INSERT` raise `IntegrityError` and leave
the table unchanged. -/

/-- The raw `INSERT INTO seen_carts` under the primary-key constraint. -/
def insertCartRow (db : List (String × String)) (token date : String) :
    Except Unit (List (String × String)) :=
  if db.any (fun r => r.1 = token) then .error () else .ok (db ++ [(token, date)])

/-- `try_record_cart`: insert and commit, returning `True`; a constraint
violation (`sqlite3.IntegrityError`) is caught and reported as `False`,
with no commit, leaving the store unchanged. -/
def tryRecordCart (db : List (String × String)) (token date : String) :
    Bool × List (String × String) :=
  match insertCartRow db token date with
  | .ok db2 => (true, db2)
  | .error _ => (false, db)

/-- A sequence of `try_record_cart` calls for one token against the same
store, each call seeing the state the previous one left. -/
def recordCartSeq (db : List (String × String)) (token : String) :
    List String → List Bool × List (String × String)
  | [] => ([], db)
  | d :: ds =>
    let r := tryRecordCart db token d
    let rest := recordCartSeq r.2 token ds
    (r.1 :: rest.1, rest.2)

/-! ## Pipeline feed orchestration (`pipeline.py`) -/

/-- `enabled(task)`: `only is None or task in only`. -/
def feedEnabled (only : Option (List String)) (task : String) : Bool :=
  match only with
  | none => true
  | some l => l.contains task

/-- One run of `run_pipeline` over the enabled feeds.  Each feed body is an
external computation whose outcome (normal return or raised exception) is
an input; the `try/except` around each feed appends the exception to
`errors` and moves on.  The run returns the attempted feed names in order
and, when any feed failed, the final
`RuntimeError(f"Pipeline finished with {len(errors)} error(s)") from errors[0]`
carrying the error count and chaining the first error. -/
def runPipeline (only : Option (List String)) (feeds : List (String × Except String Unit)) :
    List String × Except (Nat × String) Unit :=
  let attempted := (feeds.filter (fun f => feedEnabled only f.1)).map Prod.fst
  let errors := (feeds.filter (fun f => feedEnabled only f.1)).filterMap
    (fun f => match f.2 with | .ok _ => none | .error e => some e)
  (attempted, match errors with
    | [] => .ok ()
    | e :: rest => .error (rest.length + 1, e))

/-- The shared shape of the four plain sheet-append feed bodies in
`run_pipeline` (`shopify`, `meta`, `meta_ads`, `google_ads`): compute
`start = max_saved + 1 day`; when `start > end` (string compare on ISO
dates) nothing is fetched and nothing is appended; otherwise the window is
fetched and the fetched rows are appended.  The first component is the
fetched window (`none` = no external read), the second the rows appended
(`[]` = no store write). -/
def appendFeedStep {α : Type} (maxSaved : Ymd) (endYmd : String)
    (fetched : String → String → List α) : Option (String × String) × List α :=
  let start := maxSaved.next.iso
  if pyStrLt endYmd start then (none, [])
  else (some (start, endYmd), fetched start endYmd)

/-- The `klaviyo` feed body of `run_pipeline` (non-dry-run path): BEFORE
the window is computed it runs `consolidate_sum_by_date` on its own sheet
(a store write whenever duplicate dates exist), then reads the (post-
consolidation) watermark and computes `start = max_saved + 1 day` and
`end_exclusive = last_date + 1 day`; when `start >= end_exclusive` (string
compare) nothing is fetched and nothing is appended; otherwise the window
is fetched and the rows appended.  The first component is the consolidation
outcome (eliminated-row count and the rewritten table when that write
happened), the second the fetched window, the third the appended rows. -/
def klaviyoFeedStep {α : Type} (t : ConsTable) (maxSaved lastDate : Ymd)
    (fetched : String → String → List α) :
    (Nat × Option ConsTable) × Option (String × String) × List α :=
  let merged := consolidate t
  let start := maxSaved.next.iso
  let endExclusive := lastDate.next.iso
  if pyStrLe endExclusive start then (merged, none, [])
  else (merged, some (start, endExclusive), fetched start endExclusive)

/-! ## Sparse batch-update planner (`sync_consolidado_customers`, write phase)

Inputs as the source computes them: a snapshot `values` of the sheet
(row 0 the header), the per-data-row normalized emails `row_emails`, and
the `updates_by_email` mapping (insertion-ordered, as a Python dict) from
email to a column-index → new-value map. -/

/-- `cell(row, idx)` helper of the sync: `row[idx] if idx < len(row) else ""`. -/
def cellAt (row : List Cell) (i : Nat) : Cell := row.getD i (.str "")

/-- Python `dict.get(key)` on an insertion-ordered association list. -/
def lookupAssoc {β : Type} (m : List (String × β)) (k : String) : Option β :=
  (m.find? (fun p => p.1 == k)).map Prod.snd

/-- `col_idx in row_updates` / `row_updates[col_idx]` on the per-row edit map. -/
def lookupCellUpd (m : List (Nat × Cell)) (c : Nat) : Option Cell :=
  (m.find? (fun p => p.1 == c)).map Prod.snd

/-- `update_cols = sorted({*updates_by_email[next(iter(updates_by_email))].keys()}
if updates_by_email else set())`: the sorted distinct keys of the first
entry's edit map. -/
def updateColsOf (ub : List (String × List (Nat × Cell))) : List Nat :=
  match ub with
  | [] => []
  | (_, m) :: _ => List.insertionSort (· ≤ ·) (m.map Prod.fst).dedup

/-- One step of the grouping loop: start a new group when there is none or
the index does not extend the last group's last element by one, else
append to the last group. -/
def addColToGroups (groups : List (List Nat)) (idx : Nat) : List (List Nat) :=
  match groups.getLast? with
  | none => groups ++ [[idx]]
  | some g =>
    if idx = g.getLastD 0 + 1 then groups.dropLast ++ [g ++ [idx]]
    else groups ++ [[idx]]

/-- The grouping loop over `update_cols`. -/
def colGroups (cols : List Nat) : List (List Nat) :=
  cols.foldl addColToGroups []

/-- `row_emails[row_idx] if row_idx < len(row_emails) else None`. -/
def plannerRowEmail (rowEmails : List (Option String)) (r : Nat) : Option String :=
  rowEmails.getD r none

/-- `updates_by_email.get(email or "")` for one data row. -/
def plannerRowUpdates (ub : List (String × List (Nat × Cell)))
    (rowEmails : List (Option String)) (r : Nat) : Option (List (Nat × Cell)) :=
  lookupAssoc ub ((plannerRowEmail rowEmails r).getD "")

/-- The value matrix emitted for one column group: one row per data row,
each cell from the row's edit map when present, else from the snapshot
(`cell(row, col_idx)`, missing cells read as `""`). -/
def plannerMatrix (values : List (List Cell)) (ub : List (String × List (Nat × Cell)))
    (rowEmails : List (Option String)) (dataRows : Nat) (group : List Nat) :
    List (List Cell) :=
  (List.range dataRows).map (fun r =>
    let row := values.getD (r + 1) []
    let rowUpd := plannerRowUpdates ub rowEmails r
    group.map (fun c =>
      match rowUpd.bind (fun m => lookupCellUpd m c) with
      | some v => v
      | none => cellAt row c))

/-- The emitted plan: one `(first_col, last_col)` range per group, spanning
rows 2..`data_rows + 1`, with its row-major value matrix. -/
def buildPlan (values : List (List Cell)) (ub : List (String × List (Nat × Cell)))
    (rowEmails : List (Option String)) (dataRows : Nat) :
    List ((Nat × Nat) × List (List Cell)) :=
  (colGroups (updateColsOf ub)).map (fun g =>
    ((g.headD 0, g.getLastD 0), plannerMatrix values ub rowEmails dataRows g))

/-- The snapshot cell at data row `r` (0-based) and column `c`, absent
cells and rows reading as empty text. -/
def snapCell (values : List (List Cell)) (r c : Nat) : Cell :=
  cellAt (values.getD (r + 1) []) c

/-- Applying a batch update to the store: each `(range, matrix)` pair
overwrites the covered cells (rows 0..`dataRows`-1 of the data area, the
range's column span), later pairs taking precedence on overlap
(last-write-wins). -/
def applyPlan (plan : List ((Nat × Nat) × List (List Cell))) (dataRows : Nat)
    (base : Nat → Nat → Cell) : Nat → Nat → Cell :=
  plan.foldl (fun f u => fun r c =>
    if r < dataRows ∧ u.1.1 ≤ c ∧ c ≤ u.1.2 then (u.2.getD r []).getD (c - u.1.1) (.str "")
    else f r c) base

/-! ## Customer aggregation sync (`sync_consolidado_customers`)

The store interactions are made explicit: the (post-`_ensure_consolidado_header`)
header and the `internal_added` flag, the `A1:last` snapshot `values`, the
run's `end_ymd`, and the order list that `fetch_orders` would return are
inputs; the emitted batch updates and appended rows are outputs.  The
timezone day-bucketing `datetime_to_ymd_in_tz(parse_iso_datetime(s), tz)`
is an external collaborator, passed as `toDay`. -/

/-- `CustomerAggregate` dataclass. -/
structure CustomerAggregate where
  email : String
  name : String := ""
  phone : String := ""
  totalOrders : ℤ := 0
  discountedOrders : ℤ := 0
  moneyUnits : ℚ := 0
  lastPurchaseYmd : Option String := none
deriving DecidableEq, Repr

/-- `_normalize_email`: non-strings give `None`; else strip + lowercase,
empty giving `None`. -/
def normalizeEmail : Cell → Option String
  | .str s =>
    let e := lowerList (pyStripList s.data)
    if e = [] then none else some ⟨e⟩
  | _ => none

/-- `_normalize_header` on a header cell: strip + lowercase. -/
def normHeaderL (s : String) : List Char := lowerList (pyStripList s.data)

/-- Python `str.startswith` on character lists. -/
def startsWithL : List Char → List Char → Bool
  | _, [] => true
  | [], _ :: _ => false
  | a :: as, b :: bs => a == b && startsWithL as bs

/-- `_find_header_idx`: the first header cell whose normalized form is
nonempty and equals (or, with `pre`, starts with) one of the normalized
wanted names, empty wanted names being skipped. -/
def findHeaderIdx (header : List String) (name : String) (aliases : List String)
    (pre : Bool) : Option Nat :=
  let wanted := (name :: aliases).map normHeaderL
  header.findIdx? (fun raw =>
    let cell := normHeaderL raw
    !(cell == []) && wanted.any (fun w => !(w == []) && (cell == w || (pre && startsWithL cell w))))

/-- Python `x or y or 0` over coerced ints: the first truthy (non-`None`,
nonzero) value, else 0. -/
def firstTruthyInt : List (Option ℤ) → ℤ
  | [] => 0
  | o :: rest =>
    match o with
    | some n => if n ≠ 0 then n else firstTruthyInt rest
    | none => firstTruthyInt rest

/-- Python `a or b` over optional strings (an empty string is falsy). -/
def pyOrStr (a b : Option String) : Option String :=
  match a with
  | some s => if s ≠ "" then some s else b
  | none => b

/-- Python `max` of two integers (ties keep the first). -/
def maxI (a b : ℤ) : ℤ := if a < b then b else a

/-- Python `max` of two rationals (ties keep the first). -/
def maxQ (a b : ℚ) : ℚ := if a < b then b else a

/-- Insert-or-create on the `aggregates` dict: mutate the existing entry in
place, or append a fresh `CustomerAggregate(email=email)` and mutate it. -/
def updateAgg (aggs : List (String × CustomerAggregate)) (email : String)
    (f : CustomerAggregate → CustomerAggregate) : List (String × CustomerAggregate) :=
  if aggs.any (fun p => p.1 == email) then
    aggs.map (fun p => if p.1 == email then (p.1, f p.2) else p)
  else aggs ++ [(email, f { email := email })]

/-- State threaded through the reload pass over the existing sheet rows. -/
structure ReloadState where
  rowEmails : List (Option String) := []
  emailsInSheet : List String := []
  maxLast : Option String := none
  aggs : List (String × CustomerAggregate) := []
deriving DecidableEq, Repr

/-- The column indices resolved from the header, bundled. -/
structure SyncCols where
  emailIdx : Nat
  freqIdx : Nat
  recencyIdx : Nat
  moneyIdx : Nat
  sensitivityIdx : Nat
  lastIdx : Nat
  discountedIdx : Nat
  totalIdx : Nat
  moneyUnitsIdx : Nat
deriving DecidableEq, Repr

/-- One step of the reload pass (the `if not internal_added` loop):
remember the row's email, track `emails_in_sheet` and `max_last`, and fold
the row's already-cumulative totals into the aggregate with `max`-merges. -/
def reloadStep (cols : SyncCols) (st : ReloadState) (row : List Cell) : ReloadState :=
  let email? := normalizeEmail (cellAt row cols.emailIdx)
  let st := { st with rowEmails := st.rowEmails ++ [email?] }
  match email? with
  | none => st
  | some email =>
    let st := { st with emailsInSheet :=
      if st.emailsInSheet.contains email then st.emailsInSheet
      else st.emailsInSheet ++ [email] }
    let total := firstTruthyInt
      [coerceIntCu (cellAt row cols.totalIdx), coerceIntCu (cellAt row cols.freqIdx)]
    let discounted := firstTruthyInt [coerceIntCu (cellAt row cols.discountedIdx)]
    let rawUnits :=
      match coerceFloatFin (cellAt row cols.moneyUnitsIdx) with
      | some q => q
      | none => (coerceFloatFin (cellAt row cols.moneyIdx)).getD 0
    let lastYmd := coerceYmd (cellAt row cols.lastIdx)
    let st :=
      match lastYmd with
      | some l =>
        { st with maxLast :=
          match st.maxLast with
          | none => some l
          | some m => if pyStrLt m l then some l else some m }
      | none => st
    { st with aggs := updateAgg st.aggs email (fun a =>
        let a := { a with totalOrders := maxI a.totalOrders total }
        let a := { a with discountedOrders := maxI a.discountedOrders discounted }
        let a := { a with moneyUnits := maxQ a.moneyUnits rawUnits }
        match lastYmd with
        | some l =>
          match a.lastPurchaseYmd with
          | none => { a with lastPurchaseYmd := some l }
          | some prev => if pyStrLt prev l then { a with lastPurchaseYmd := some l } else a
        | none => a) }

/-- One step of the email-only pass (the `else` loop when the internal
columns were just added). -/
def emailOnlyStep (cols : SyncCols) (st : ReloadState) (row : List Cell) : ReloadState :=
  let email? := normalizeEmail (cellAt row cols.emailIdx)
  let st := { st with rowEmails := st.rowEmails ++ [email?] }
  match email? with
  | none => st
  | some email =>
    { st with emailsInSheet :=
      if st.emailsInSheet.contains email then st.emailsInSheet
      else st.emailsInSheet ++ [email] }

/-- `_pick_customer_email`: `customer.get("email") or order.get("email")`,
normalized. -/
def pickCustomerEmail (o : Order) : Option String :=
  match pyOrStr (o.customer.bind CustomerInfo.email) o.email with
  | none => none
  | some s => normalizeEmail (.str s)

/-- `_pick_customer_name`: a nonempty stripped `displayName`, else the
stripped nonempty first/last name parts joined with a space. -/
def pickCustomerName (o : Order) : String :=
  let fromParts :=
    let parts := [o.customer.bind CustomerInfo.firstName,
                  o.customer.bind CustomerInfo.lastName].filterMap
      (fun p => match p with
        | some s => if pyStrip s ≠ "" then some (pyStrip s) else none
        | none => none)
    if parts = [] then "" else String.intercalate " " parts
  match o.customer.bind CustomerInfo.displayName with
  | some s => if pyStrip s ≠ "" then pyStrip s else fromParts
  | none => fromParts

/-- `_pick_customer_phone`: the first candidate among the customer's phone,
the order's phone, and the shipping/billing address phones with a nonempty
strip, returned stripped. -/
def pickCustomerPhone (o : Order) : String :=
  let candidates := [o.customer.bind CustomerInfo.phone, o.phone,
                     o.shippingAddressPhone, o.billingAddressPhone]
  match candidates.filterMap (fun p => match p with
    | some s => if pyStrip s ≠ "" then some (pyStrip s) else none
    | none => none) with
  | [] => ""
  | p :: _ => p

/-- Folding one fetched order into the aggregates (the `for order in
orders` loop): skip orders without a usable email or `createdAt`; bucket by
timezone-local day; add one order, one discounted order when the discount
amount is positive, and the net amount; advance the last-purchase date;
fill name/phone only when still empty. -/
def orderStep (fixedDeduction vatFactor : ℚ) (toDay : String → String)
    (aggs : List (String × CustomerAggregate)) (o : Order) :
    List (String × CustomerAggregate) :=
  match pickCustomerEmail o with
  | none => aggs
  | some email =>
    match o.createdAt with
    | none => aggs
    | some created =>
      if created = "" then aggs
      else
        let day := toDay created
        let amount := (pickMoney o).1
        let discountAmount := pickDiscountAmount o
        let netU := (amount - fixedDeduction) / vatFactor
        updateAgg aggs email (fun a =>
          let a := { a with totalOrders := a.totalOrders + 1 }
          let a := if 0 < discountAmount
            then { a with discountedOrders := a.discountedOrders + 1 } else a
          let a := { a with moneyUnits := a.moneyUnits + netU }
          let a :=
            match a.lastPurchaseYmd with
            | none => { a with lastPurchaseYmd := some day }
            | some prev => if pyStrLt prev day then { a with lastPurchaseYmd := some day } else a
          let a := if a.name = "" then { a with name := pickCustomerName o } else a
          if a.phone = "" then { a with phone := pickCustomerPhone o } else a)

/-- `sensitivity_label`: empty for no orders, `Alta` from ratio 0.8,
`Media` from 0.6, else `Baja` (the float literals 0.8/0.6 modelled as exact
rationals). -/
def sensitivityLabel (discountedOrders totalOrders : ℤ) : String :=
  if totalOrders ≤ 0 then ""
  else
    let ratio : ℚ := (discountedOrders : ℚ) / (totalOrders : ℚ)
    if 4/5 ≤ ratio then "Alta"
    else if 3/5 ≤ ratio then "Media"
    else "Baja"

/-- The `updates_by_email` dict: for each aggregate with a parseable
last-purchase date, the eight cell edits — Frecuency, Recency (days from
the last purchase to `end_date`, possibly negative), Money (rounded
half-away-from-zero), the sensitivity label, and the four internal tracking
columns (`__money_units` rounded to 6 decimals). -/
def buildUpdatesByEmail (cols : SyncCols) (endDate : Ymd)
    (aggs : List (String × CustomerAggregate)) :
    List (String × List (Nat × Cell)) :=
  aggs.foldl (fun acc p =>
    match p.2.lastPurchaseYmd with
    | none => acc
    | some last =>
      match parseYmd last with
      | none => acc
      | some lastDate =>
        let recency : ℤ := rataDie endDate - rataDie lastDate
        acc ++ [(p.1,
          [(cols.freqIdx, .int p.2.totalOrders),
           (cols.recencyIdx, .int recency),
           (cols.moneyIdx, .int (roundHAZ p.2.moneyUnits)),
           (cols.sensitivityIdx, .str (sensitivityLabel p.2.discountedOrders p.2.totalOrders)),
           (cols.lastIdx, .str last),
           (cols.discountedIdx, .int p.2.discountedOrders),
           (cols.totalIdx, .int p.2.totalOrders),
           (cols.moneyUnitsIdx, .float (pyRound6 p.2.moneyUnits))])]) []

/-- The row dict appended for a new customer (`new_rows` loop), keyed by
header names. -/
def buildNewRow (header : List String) (cols : SyncCols) (nameIdx phoneIdx : Option Nat)
    (agg : CustomerAggregate) (email : String) (upd : List (Nat × Cell)) :
    List (String × Cell) :=
  let get (i : Nat) : Cell := (lookupCellUpd upd i).getD (.str "")
  (match nameIdx with
   | some i => [(header.getD i "", Cell.str agg.name)]
   | none => []) ++
  [(header.getD cols.emailIdx "", Cell.str email)] ++
  (match phoneIdx with
   | some i => [(header.getD i "", Cell.str agg.phone)]
   | none => []) ++
  [(header.getD cols.freqIdx "", get cols.freqIdx),
   (header.getD cols.recencyIdx "", get cols.recencyIdx),
   (header.getD cols.moneyIdx "", get cols.moneyIdx),
   (header.getD cols.sensitivityIdx "", get cols.sensitivityIdx),
   (header.getD cols.lastIdx "", get cols.lastIdx),
   (header.getD cols.discountedIdx "", get cols.discountedIdx),
   (header.getD cols.totalIdx "", get cols.totalIdx),
   (header.getD cols.moneyUnitsIdx "", get cols.moneyUnitsIdx)]

/-- Sort `updates_by_email.items()` by email (Python `sorted` with the
string key). -/
def sortUpdatesByEmail (ub : List (String × List (Nat × Cell))) :
    List (String × List (Nat × Cell)) :=
  List.insertionSort (fun a b => pyStrLe a.1 b.1 = true) ub

/-- The long sensitivity header name. -/
def sensitivityColumn : String :=
  "Sensibilidad a descuento (Alta +80%, Media 60%, Baja 40%)"

/-- Result of one customers sync: the computed fetch-window start, whether
the order fetch was issued, the emitted batch updates (empty = no
`batch_update_values` call), and the appended new-customer rows (empty =
no `append_rows` call). -/
structure SyncOut where
  startYmd : Option String
  didFetch : Bool
  batchUpdates : List ((Nat × Nat) × List (List Cell))
  newRows : List (List (String × Cell))
deriving DecidableEq, Repr

/-- `sync_consolidado_customers` (store I/O made explicit; `dry_run=False`).
`header`/`internalAdded` are the results of `_ensure_consolidado_header`,
`values` the `A1:last` snapshot, `fetched` what `fetch_orders` would
return for the computed query. -/
def syncCustomers (header : List String) (internalAdded : Bool)
    (values : List (List Cell)) (endYmd : String) (fetched : List Order)
    (fixedDeduction vatFactor : ℚ) (toDay : String → String) :
    Except String SyncOut := do
  let some emailIdx := findHeaderIdx header "Email" [] false
    | .error "missing column Email"
  let freqIdx := findHeaderIdx header "Frecuency" [] false
  let recencyIdx := findHeaderIdx header "Recency" [] false
  let moneyIdx := findHeaderIdx header "Money" [] false
  let sensitivityIdx := findHeaderIdx header sensitivityColumn ["Sensibilidad a descuento"] true
  let lastIdx := findHeaderIdx header "__last_purchase_ymd" [] false
  let discountedIdx := findHeaderIdx header "__discounted_orders" [] false
  let totalIdx := findHeaderIdx header "__total_orders" [] false
  let moneyUnitsIdx := findHeaderIdx header "__money_units" [] false
  match freqIdx, recencyIdx, moneyIdx, sensitivityIdx, lastIdx, discountedIdx,
      totalIdx, moneyUnitsIdx with
  | some freqIdx, some recencyIdx, some moneyIdx, some sensitivityIdx,
    some lastIdx, some discountedIdx, some totalIdx, some moneyUnitsIdx =>
    let cols : SyncCols :=
      ⟨emailIdx, freqIdx, recencyIdx, moneyIdx, sensitivityIdx, lastIdx,
       discountedIdx, totalIdx, moneyUnitsIdx⟩
    let dataRows := values.length - 1
    let st :=
      if ¬ internalAdded then (values.drop 1).foldl (reloadStep cols) {}
      else (values.drop 1).foldl (emailOnlyStep cols) {}
    let needsBackfill := internalAdded || st.maxLast.isNone
    let aggs0 := if needsBackfill then [] else st.aggs
    let startYmd : Option String :=
      if !needsBackfill then
        match st.maxLast with
        | some m => (parseYmd m).map (fun d => d.next.iso)
        | none => none
      else none
    let noFetch :=
      match startYmd with
      | some s => pyStrLt endYmd s
      | none => false
    let orders := if noFetch then [] else fetched
    let aggs := orders.foldl (orderStep fixedDeduction vatFactor toDay) aggs0
    let some endDate := parseYmd endYmd
      | .error "Invalid end_ymd"
    let ub := buildUpdatesByEmail cols endDate aggs
    let batchUpdates :=
      if dataRows ≠ 0 then buildPlan values ub st.rowEmails dataRows else []
    let nameIdx := findHeaderIdx header "Nombre" [] false
    let phoneIdx := findHeaderIdx header "Teléfono" ["Telefono"] false
    let newRows := (sortUpdatesByEmail ub).filterMap (fun p =>
      if st.emailsInSheet.contains p.1 then none
      else
        match lookupAssoc aggs p.1 with
        | none => none
        | some agg => some (buildNewRow header cols nameIdx phoneIdx agg p.1 p.2))
    .ok ⟨startYmd, !noFetch, batchUpdates, newRows⟩
  | _, _, _, _, _, _, _, _ => .error "missing required columns"

/-! ## Daily order aggregation (`shopify.py` `aggregate_orders_to_rows`) -/

/-- `_coerce_int` in `shopify.py` (NOT the `customers.py` one): `bool`/`None`
rejected; ints as-is; floats truncated unless NaN/Inf; strings stripped and
parsed with `int` directly (no character filtering). -/
def coerceIntSh : Cell → Option ℤ
  | .empty => none
  | .boolean _ => none
  | .int n => some n
  | .float q => some (pyTrunc q)
  | .nan => none
  | .inf => none
  | .ninf => none
  | .str s =>
    let t := pyStripList s.data
    if t.isEmpty then none else pyIntOfString t

/-- One output row of the daily aggregation (`Día`, new/returning order
counts, net revenues). -/
structure DayRow where
  dia : String
  ordersNew : ℤ
  ordersReturning : ℤ
  revenueNew : ℤ
  revenueReturning : ℤ
deriving DecidableEq, Repr

/-- Whether an order is counted at all: `createdAt` must be a nonempty
string (`if not isinstance(created_at, str) or not created_at: continue`). -/
def orderCounted (o : Order) : Bool :=
  match o.createdAt with
  | some s => s ≠ ""
  | none => false

/-- The order's day bucket under the external timezone collaborator. -/
def orderDayKey (toDay : String → String) (o : Order) : Option String :=
  match o.createdAt with
  | some s => if s ≠ "" then some (toDay s) else none
  | none => none

/-- Whether the order counts as returning: the customer's
`numberOfOrders` coerces to an int ≥ 2. -/
def orderReturning (o : Order) : Bool :=
  match (o.customer.bind CustomerInfo.numberOfOrders).bind (fun c => coerceIntSh c) with
  | some n => 2 ≤ n
  | none => false

/-- The `by_day` accumulator entry for one day key:
`(orders_new, orders_returning, revenue_new_raw, revenue_returning_raw)`. -/
def dayStats (orders : List Order) (toDay : String → String) (key : String) :
    Nat × Nat × ℚ × ℚ :=
  orders.foldl (fun acc o =>
    if orderDayKey toDay o = some key then
      let amount := (pickMoney o).1
      if orderReturning o then (acc.1, acc.2.1 + 1, acc.2.2.1, acc.2.2.2 + amount)
      else (acc.1 + 1, acc.2.1, acc.2.2.1 + amount, acc.2.2.2)
    else acc) (0, 0, 0, 0)

/-- `aggregate_orders_to_rows`: parse the window (invalid shapes raise),
bucket the counted orders per timezone-local day, and emit one row per day
of the inclusive range, days with no orders yielding zero counts and
revenues; revenue is `(raw - fixed_deduction*count) / vat_factor` rounded
half away from zero. -/
def aggregateOrdersToRows (orders : List Order) (startYmd endYmd : String)
    (toDay : String → String) (fixedDeduction : ℤ) (vatFactor : ℚ) :
    Except String (List DayRow) := do
  let some startDate := parseYmd startYmd
    | .error "Invalid start/end date"
  let some endDate := parseYmd endYmd
    | .error "Invalid start/end date"
  .ok ((dateRangeInclusive startDate endDate).map (fun day =>
    let key := day.iso
    let acc := dayStats orders toDay key
    let ordersNew : ℤ := acc.1
    let ordersReturning : ℤ := acc.2.1
    let revenueNew := roundHAZ ((acc.2.2.1 - (fixedDeduction : ℚ) * (acc.1 : ℚ)) / vatFactor)
    let revenueReturning :=
      roundHAZ ((acc.2.2.2 - (fixedDeduction : ℚ) * (acc.2.1 : ℚ)) / vatFactor)
    ⟨key, ordersNew, ordersReturning, revenueNew, revenueReturning⟩))

/-! ## Webhook store lemmas (C2) -/

lemma tryRecordCart_dup (db : List (String × String)) (token d : String)
    (h : db.any (fun r => r.1 = token) = true) :
    tryRecordCart db token d = (false, db) := by
  simp [tryRecordCart, insertCartRow, h]

lemma recordCartSeq_dup (ds : List String) (db : List (String × String)) (token : String)
    (h : db.any (fun r => r.1 = token) = true) :
    recordCartSeq db token ds = (ds.map (fun _ => false), db) := by
  induction ds with
  | nil => simp [recordCartSeq]
  | cons d ds ih => simp [recordCartSeq, tryRecordCart_dup db token d h, ih]

/-- C2: for every key, among any sequence of `try_record_cart` calls with
that key against the same store, exactly the first returns `True` (the
store not yet holding the key) and every later call returns `False`; the
losing insert is the caught-`IntegrityError` normal outcome, and a `False`
call leaves the store unchanged. -/
theorem tryRecordCart_exactly_first_wins (db : List (String × String)) (token : String)
    (h : ∀ r ∈ db, r.1 ≠ token) (d : String) (ds : List String) :
    recordCartSeq db token (d :: ds) =
      (true :: ds.map (fun _ => false), db ++ [(token, d)]) ∧
    (∀ (db' : List (String × String)) (d' : String),
      (∃ r ∈ db', r.1 = token) → tryRecordCart db' token d' = (false, db')) := by
  constructor
  · have hany : db.any (fun r => r.1 = token) = false := by
      simp only [List.any_eq_false, decide_eq_true_eq]
      exact h
    have hfirst : tryRecordCart db token d = (true, db ++ [(token, d)]) := by
      simp [tryRecordCart, insertCartRow, hany]
    have hmem : (db ++ [(token, d)]).any (fun r => r.1 = token) = true := by
      simp
    simp [recordCartSeq, hfirst, recordCartSeq_dup ds _ token hmem]
  · intro db' d' ⟨r, hr, hrt⟩
    apply tryRecordCart_dup
    simp only [List.any_eq_true, decide_eq_true_eq]
    exact ⟨r, hr, hrt⟩

/-- Witness for C2 at a concrete store and call sequence. -/
theorem tryRecordCart_exactly_first_wins_witness :
    (∀ r ∈ [("other", "2025-01-01")], (r : String × String).1 ≠ "tok") ∧
    (recordCartSeq [("other", "2025-01-01")] "tok" ["2025-02-01", "2025-02-01", "2025-02-02"] =
      (true :: [false, false],
       [("other", "2025-01-01"), ("tok", "2025-02-01")]) ∧
    (∀ (db' : List (String × String)) (d' : String),
      (∃ r ∈ db', r.1 = "tok") → tryRecordCart db' "tok" d' = (false, db'))) :=
  ⟨by decide, tryRecordCart_exactly_first_wins [("other", "2025-01-01")] "tok"
    (by decide) "2025-02-01" ["2025-02-01", "2025-02-02"]⟩

/-! ## Money preference (C7) -/

/-- C7 counterexample: an order carrying both an original total
(`totalPriceSet`, amount 10) and a current total (`currentTotalPriceSet`,
amount 20).  `_pick_money` picks the original total 10, not the current
total 20 as the claim's preference order would require. -/
theorem pickMoney_prefers_original_counterexample :
    (({ Order.none0 with
        totalPriceSet := some ⟨some "10", none⟩,
        currentTotalPriceSet := some ⟨some "20", none⟩ } : Order).totalPriceSet.isSome ∧
     ({ Order.none0 with
        totalPriceSet := some ⟨some "10", none⟩,
        currentTotalPriceSet := some ⟨some "20", none⟩ } : Order).currentTotalPriceSet.isSome) ∧
    (pickMoney { Order.none0 with
        totalPriceSet := some ⟨some "10", none⟩,
        currentTotalPriceSet := some ⟨some "20", none⟩ }).1 = 10 ∧
    ¬ (pickMoney { Order.none0 with
        totalPriceSet := some ⟨some "10", none⟩,
        currentTotalPriceSet := some ⟨some "20", none⟩ }).1 = 20 := by
  refine ⟨⟨rfl, rfl⟩, ?_, ?_⟩ <;> decide

/-- C7 amended: the gross amount used by
`net_amount = (gross - fixed_deduction) / vat_factor` is the first present
money set in the order `totalPriceSet` (original total),
`currentTotalPriceSet`, `subtotalPriceSet`, `currentSubtotalPriceSet` —
original preferred over current, and total-price over subtotal-price — with
`(0, "CLP")` when none is present. -/
theorem pickMoney_preference (o : Order) :
    (∀ m, o.totalPriceSet = some m → pickMoney o = (moneyAmount m, moneyCurrency m)) ∧
    (o.totalPriceSet = none → ∀ m, o.currentTotalPriceSet = some m →
      pickMoney o = (moneyAmount m, moneyCurrency m)) ∧
    (o.totalPriceSet = none → o.currentTotalPriceSet = none → ∀ m,
      o.subtotalPriceSet = some m → pickMoney o = (moneyAmount m, moneyCurrency m)) ∧
    (o.totalPriceSet = none → o.currentTotalPriceSet = none → o.subtotalPriceSet = none →
      ∀ m, o.currentSubtotalPriceSet = some m →
        pickMoney o = (moneyAmount m, moneyCurrency m)) ∧
    (o.totalPriceSet = none → o.currentTotalPriceSet = none → o.subtotalPriceSet = none →
      o.currentSubtotalPriceSet = none → pickMoney o = (0, "CLP")) ∧
    (∀ fixedDeduction vatFactor : ℚ, netUnits o fixedDeduction vatFactor =
      ((pickMoney o).1 - fixedDeduction) / vatFactor) := by
  refine ⟨?_, ?_, ?_, ?_, ?_, fun _ _ => rfl⟩ <;>
    intros <;> simp_all [pickMoney, Option.orElse]

/-- Witness for C7's amended preference at concrete orders exercising the
first and third branch. -/
theorem pickMoney_preference_witness :
    (pickMoney { Order.none0 with totalPriceSet := some ⟨some "10", some "CLP"⟩ } =
      (moneyAmount ⟨some "10", some "CLP"⟩, moneyCurrency ⟨some "10", some "CLP"⟩)) ∧
    (pickMoney { Order.none0 with subtotalPriceSet := some ⟨some "7", none⟩ } =
      (moneyAmount ⟨some "7", none⟩, moneyCurrency ⟨some "7", none⟩)) :=
  ⟨(pickMoney_preference _).1 _ rfl,
   ((pickMoney_preference _).2.2.1 rfl rfl) _ rfl⟩

/-! ## Number-coercion lemmas (C8) -/

lemma drop_length_takeWhile (p : Char → Bool) (l : List Char) :
    l.drop (l.takeWhile p).length = l.dropWhile p := by
  induction l with
  | nil => rfl
  | cons a t ih =>
    by_cases h : p a <;> simp [List.takeWhile_cons, List.dropWhile_cons, h, ih]

lemma count_takeWhile_isDigit_dot (l : List Char) :
    (l.takeWhile Char.isDigit).count '.' = 0 := by
  rw [List.count_eq_zero]
  intro hmem
  have := List.takeWhile_subset (p := Char.isDigit) (l := l)
  have hp := List.mem_takeWhile_imp hmem
  simp at hp

lemma pyFloatExponent_dot (q : ℚ) (r3 : List Char) (h : '.' ∈ r3) :
    pyFloatExponent q r3 = none := by
  have hall : ∀ (l : List Char), '.' ∈ l → (l.all Char.isDigit) = false := fun l hl => by
    rw [List.all_eq_false]; exact ⟨'.', hl, by decide⟩
  unfold pyFloatExponent
  rcases r3 with _ | ⟨c, rr⟩
  · simp at h
  · by_cases hp : c = '+'
    · subst hp
      have hrr : '.' ∈ rr := by simpa using h
      simp [hall rr hrr]
    · by_cases hm : c = '-'
      · subst hm
        have hrr : '.' ∈ rr := by simpa using h
        simp [hall rr hrr]
      · simp only [List.head?_cons, List.tail_cons]
        have hcond : (some c = some '+' ∨ some c = some '-') = False :=
          eq_false (by simp [hp, hm])
        have hfalse : ¬ ((c :: rr).all Char.isDigit = true) := by
          rw [hall (c :: rr) h]; simp
        simp only [hcond, if_false]
        rw [if_pos (Or.inr hfalse)]

lemma count_dot_dropWhile_digits (body : List Char) :
    (body.dropWhile Char.isDigit).count '.' = body.count '.' := by
  conv_rhs => rw [← List.takeWhile_append_dropWhile Char.isDigit body]
  rw [List.count_append, count_takeWhile_isDigit_dot]
  omega

lemma pyFloatNumeric_two_dots (neg : Bool) (body : List Char)
    (h : 2 ≤ body.count '.') : pyFloatNumeric neg body = none := by
  unfold pyFloatNumeric
  dsimp only
  rw [drop_length_takeWhile]
  have hcnt1 : 2 ≤ (body.dropWhile Char.isDigit).count '.' := by
    rw [count_dot_dropWhile_digits]; exact h
  rcases hrest : body.dropWhile Char.isDigit with _ | ⟨c, r⟩
  · rw [hrest] at hcnt1; simp at hcnt1
  · rw [hrest] at hcnt1
    by_cases hc : c = '.'
    · subst hc
      have hcr : 1 ≤ r.count '.' := by
        simp only [List.count_cons, show (('.' == '.') = true) from by decide,
          if_true] at hcnt1
        omega
      simp only [List.head?_cons, List.tail_cons, if_true]
      rw [drop_length_takeWhile]
      have hcrest2 : 1 ≤ (r.dropWhile Char.isDigit).count '.' := by
        rw [count_dot_dropWhile_digits]; exact hcr
      have hmem2 : '.' ∈ r.dropWhile Char.isDigit := List.count_pos_iff.mp (by omega)
      rcases hrest2 : r.dropWhile Char.isDigit with _ | ⟨e, r3⟩
      · rw [hrest2] at hmem2; simp at hmem2
      · rw [hrest2] at hmem2
        by_cases hz : (body.takeWhile Char.isDigit).length = 0 ∧
            (r.takeWhile Char.isDigit).length = 0
        · rw [if_pos hz]
        · rw [if_neg hz]
          dsimp only
          by_cases he : e = 'e' ∨ e = 'E'
          · rw [if_pos he]
            apply pyFloatExponent_dot
            rcases List.mem_cons.mp hmem2 with h2 | h2
            · exfalso; rcases he with he | he <;> (rw [he] at h2; exact absurd h2 (by decide))
            · exact h2
          · rw [if_neg he]
    · have hbq : ((c == '.') = false) := by
        rcases eq_or_ne c '.' with hq | hq
        · exact absurd hq hc
        · exact beq_eq_false_iff_ne.mpr hq
      have hcr : 1 ≤ r.count '.' := by
        simp [List.count_cons, hbq] at hcnt1
        omega
      have hco : (some c = some ('.' : Char)) = False := by simp [hc]
      simp only [List.head?_cons, List.tail_cons, hco, if_false]
      split
      · rfl
      · by_cases he : c = 'e' ∨ c = 'E'
        · rw [if_pos he]
          exact pyFloatExponent_dot _ r (List.count_pos_iff.mp (by omega))
        · rw [if_neg he]

lemma pyFloatOfString_two_dots (cs : List Char) (h : 2 ≤ cs.count '.') :
    pyFloatOfString cs = none := by
  have hbody : ∀ (neg : Bool) (b : List Char), 2 ≤ b.count '.' →
      pyFloatBody neg b = none := by
    intro neg b hb
    have hmem : '.' ∈ b := List.count_pos_iff.mp (by omega)
    have hlow : '.' ∈ lowerList b := by
      have := List.mem_map_of_mem Char.toLower hmem
      simpa [lowerList] using this
    unfold pyFloatBody
    rw [if_neg, if_neg]
    · exact pyFloatNumeric_two_dots neg b hb
    · intro he; rw [he] at hlow; simp at hlow
    · rintro (he | he) <;> (rw [he] at hlow; simp at hlow)
  unfold pyFloatOfString
  by_cases hp : cs.head? = some '+'
  · rw [if_pos hp]
    rcases cs with _ | ⟨c, r⟩
    · simp at hp
    · simp only [List.head?_cons, Option.some.injEq] at hp
      subst hp
      apply hbody
      simp only [List.count_cons, show (('.' == '+') = false) from by decide,
        if_false, Nat.add_zero] at h
      exact h
  · rw [if_neg hp]
    by_cases hm : cs.head? = some '-'
    · rw [if_pos hm]
      rcases cs with _ | ⟨c, r⟩
      · simp at hm
      · simp only [List.head?_cons, Option.some.injEq] at hm
        subst hm
        apply hbody
        simp only [List.count_cons, show (('.' == '-') = false) from by decide,
          if_false, Nat.add_zero] at h
        exact h
    · rw [if_neg hm]
      exact hbody false cs h

lemma count_dot_map_comma (t : List Char) :
    (t.map (fun c => if c = ',' then '.' else c)).count '.' =
      t.count '.' + t.count ',' := by
  induction t with
  | nil => rfl
  | cons a t ih =>
    by_cases ha : a = ','
    · subst ha
      simp [List.count_cons, ih]
      omega
    · by_cases hd : a = '.'
      · subst hd
        simp [List.count_cons, ih]
        omega
      · have h1 : ((a == '.') = false) := beq_eq_false_iff_ne.mpr hd
        have h2 : ((a == ',') = false) := beq_eq_false_iff_ne.mpr ha
        simp [List.count_cons, ih, ha, h1, h2]

/-- C8 counterexample: the spec's locale rule would coerce `"1.234,5"` to
1234.5; `_coerce_cell_to_number` actually yields absent (the comma becomes
a second dot) and `_coerce_float` yields 1.2345 (the comma is stripped as a
thousands separator). -/
theorem coerceNumber_locale_counterexample :
    coerceNumber (.str "1.234,5") = none ∧
    coerceFloat (.str "1.234,5") = some (.finite (12345/10000)) ∧
    ¬ (coerceNumber (.str "1.234,5") = some (2469/2) ∨
       coerceFloat (.str "1.234,5") = some (.finite (2469/2))) := by
  refine ⟨by decide, by decide, ?_⟩
  rintro (h | h) <;> exact absurd h (by decide)

/-- C8 amended: both coercions are total functions returning absent for
empty/whitespace strings; `_coerce_cell_to_number` rejects NaN/±Inf while
`_coerce_float` rejects only NaN (±Inf passes through); for every string
whose stripped form contains both `.` and `,`, `_coerce_cell_to_number`
returns absent (the comma is turned into a second decimal dot), and
`_coerce_float` treats the commas as thousands separators and strips them,
so `"1.234,5"` coerces to 1.2345, not 1234.5. -/
theorem coerceNumber_amended :
    (∀ s : String, pyStripList s.data = [] →
      coerceNumber (.str s) = none ∧ coerceFloat (.str s) = none) ∧
    (coerceNumber .nan = none ∧ coerceNumber .inf = none ∧ coerceNumber .ninf = none) ∧
    (coerceFloat .nan = none ∧ coerceFloat .inf = some (.finfinite false) ∧
      coerceFloat .ninf = some (.finfinite true)) ∧
    (∀ s : String, '.' ∈ pyStripList s.data → ',' ∈ pyStripList s.data →
      coerceNumber (.str s) = none) ∧
    (∀ s : String,
      '.' ∈ (pyStripList s.data).filter keptFloatChar →
      ',' ∈ (pyStripList s.data).filter keptFloatChar →
      coerceFloat (.str s) =
        pyFloatOfString (((pyStripList s.data).filter keptFloatChar).filter (· ≠ ','))) ∧
    (coerceFloat (.str "1.234,5") = some (.finite (12345/10000))) := by
  refine ⟨?_, ⟨rfl, rfl, rfl⟩, ⟨rfl, rfl, rfl⟩, ?_, ?_, by decide⟩
  · intro s hs
    constructor <;> simp [coerceNumber, coerceFloat, hs]
  · intro s hdot hcomma
    have hne : pyStripList s.data ≠ [] := by
      intro he; rw [he] at hdot; simp at hdot
    simp only [coerceNumber]
    rw [if_neg (by simpa [List.isEmpty_iff] using hne)]
    have hcount : 2 ≤ ((pyStripList s.data).map
        (fun c => if c = ',' then '.' else c)).count '.' := by
      rw [count_dot_map_comma]
      have h1 : 1 ≤ (pyStripList s.data).count '.' := List.count_pos_iff.mpr hdot
      have h2 : 1 ≤ (pyStripList s.data).count ',' := List.count_pos_iff.mpr hcomma
      omega
    rw [pyFloatOfString_two_dots _ hcount]
  · intro s hdot hcomma
    have hne : pyStripList s.data ≠ [] := by
      intro he
      rw [he] at hdot; simp at hdot
    have hdotc : ((pyStripList s.data).filter keptFloatChar).contains '.' = true := by
      simpa using hdot
    have hcommac : ((pyStripList s.data).filter keptFloatChar).contains ',' = true := by
      simpa using hcomma
    simp only [coerceFloat]
    rw [if_neg (by simpa [List.isEmpty_iff] using hne)]
    have hbad : ¬ ((pyStripList s.data).filter keptFloatChar = [] ∨
        (pyStripList s.data).filter keptFloatChar = ['-'] ∨
        (pyStripList s.data).filter keptFloatChar = ['.'] ∨
        (pyStripList s.data).filter keptFloatChar = [',']) := by
      rintro (he | he | he | he) <;>
        (rw [he] at hdot hcomma; simp_all)
    rw [if_neg hbad, if_pos ⟨hdotc, hcommac⟩]
    cases pyFloatOfString (((pyStripList s.data).filter keptFloatChar).filter (· ≠ ',')) <;>
      rfl

/-- Witness for C8's amended statement at concrete strings. -/
theorem coerceNumber_amended_witness :
    (coerceNumber (.str "  ") = none ∧ coerceFloat (.str "  ") = none) ∧
    coerceNumber (.str "1.234,5") = none ∧
    coerceFloat (.str "1.234,5") =
      pyFloatOfString (((pyStripList "1.234,5".data).filter keptFloatChar).filter
        (· ≠ ',')) :=
  ⟨coerceNumber_amended.1 "  " (by decide),
   coerceNumber_amended.2.2.2.1 "1.234,5" (by decide) (by decide),
   coerceNumber_amended.2.2.2.2.1 "1.234,5" (by decide) (by decide)⟩

/-! ## Pipeline error aggregation (C9) -/

/-- The collected per-feed errors of a run. -/
def pipelineErrors (only : Option (List String)) (feeds : List (String × Except String Unit)) :
    List String :=
  (feeds.filter (fun f => feedEnabled only f.1)).filterMap
    (fun f => match f.2 with | .ok _ => none | .error e => some e)

lemma runPipeline_snd (only : Option (List String)) (feeds : List (String × Except String Unit)) :
    (runPipeline only feeds).2 =
      match pipelineErrors only feeds with
      | [] => .ok ()
      | e :: rest => .error (rest.length + 1, e) := rfl

lemma pipelineErrors_head_decomp (only : Option (List String))
    (feeds : List (String × Except String Unit)) (e : String)
    (h : (pipelineErrors only feeds).head? = some e) :
    ∃ pre f post, feeds = pre ++ f :: post ∧ feedEnabled only f.1 = true ∧
      f.2 = .error e ∧
      ∀ g ∈ pre, feedEnabled only g.1 = true → ∀ e', g.2 ≠ .error e' := by
  induction feeds with
  | nil => simp [pipelineErrors] at h
  | cons f fs ih =>
    by_cases hen : feedEnabled only f.1 = true
    · rcases hout : f.2 with e0 | u
      · have hped : pipelineErrors only (f :: fs) = e0 :: pipelineErrors only fs := by
          simp [pipelineErrors, List.filter_cons, hen, hout]
        rw [hped] at h
        simp only [List.head?_cons, Option.some.injEq] at h
        subst h
        exact ⟨[], f, fs, by simp, hen, hout, by simp⟩
      · have hped : pipelineErrors only (f :: fs) = pipelineErrors only fs := by
          simp [pipelineErrors, List.filter_cons, hen, hout]
        rw [hped] at h
        obtain ⟨pre, g, post, hfs, hgen, hge, hpre⟩ := ih h
        refine ⟨f :: pre, g, post, by simp [hfs], hgen, hge, ?_⟩
        intro g2 hg2 hen2 e'
        rcases List.mem_cons.mp hg2 with hg2 | hg2
        · subst hg2; rw [hout]; intro hcon; cases hcon
        · exact hpre g2 hg2 hen2 e'
    · have hped : pipelineErrors only (f :: fs) = pipelineErrors only fs := by
        simp [pipelineErrors, List.filter_cons, hen]
      rw [hped] at h
      obtain ⟨pre, g, post, hfs, hgen, hge, hpre⟩ := ih h
      refine ⟨f :: pre, g, post, by simp [hfs], hgen, hge, ?_⟩
      intro g2 hg2 hen2 e'
      rcases List.mem_cons.mp hg2 with hg2 | hg2
      · subst hg2; exact absurd hen2 hen
      · exact hpre g2 hg2 hen2 e'

lemma pipelineErrors_length (only : Option (List String))
    (feeds : List (String × Except String Unit)) :
    (pipelineErrors only feeds).length =
      ((feeds.filter (fun f => feedEnabled only f.1)).filter
        (fun f => match f.2 with | .ok _ => false | .error _ => true)).length := by
  induction feeds with
  | nil => rfl
  | cons f fs ih =>
    by_cases hen : feedEnabled only f.1 = true
    · rcases hout : f.2 with e0 | u <;>
        simp [pipelineErrors, List.filter_cons, hen, hout] at ih ⊢ <;>
        omega
    · simp [pipelineErrors, List.filter_cons, hen] at ih ⊢
      omega

/-- C9: during one pipeline run, every enabled feed is attempted in order
regardless of earlier failures (exceptions are caught and collected); the
run raises if and only if at least one enabled feed failed; and the raised
aggregate error carries the number of failed feeds and chains the first
underlying error (the error of the earliest enabled failing feed). -/
theorem runPipeline_aggregate (only : Option (List String))
    (feeds : List (String × Except String Unit)) :
    (runPipeline only feeds).1 =
      (feeds.filter (fun f => feedEnabled only f.1)).map Prod.fst ∧
    ((runPipeline only feeds).2 = .ok () ↔
      ∀ f ∈ feeds, feedEnabled only f.1 = true → ∀ e, f.2 ≠ .error e) ∧
    (∀ n e, (runPipeline only feeds).2 = .error (n, e) →
      n = ((feeds.filter (fun f => feedEnabled only f.1)).filter
        (fun f => match f.2 with | .ok _ => false | .error _ => true)).length ∧
      ∃ pre f post, feeds = pre ++ f :: post ∧ feedEnabled only f.1 = true ∧
        f.2 = .error e ∧
        ∀ g ∈ pre, feedEnabled only g.1 = true → ∀ e', g.2 ≠ .error e') := by
  refine ⟨rfl, ?_, ?_⟩
  · rw [runPipeline_snd]
    rcases herr : pipelineErrors only feeds with _ | ⟨e, rest⟩
    · simp only [List.filterMap_eq_nil_iff, pipelineErrors] at herr
      simp only [true_iff]
      intro f hf hen e hfe
      have hmem : f ∈ feeds.filter (fun f => feedEnabled only f.1) :=
        List.mem_filter.mpr ⟨hf, hen⟩
      have := herr f hmem
      rw [hfe] at this
      cases this
    · simp only [reduceCtorEq, false_iff]
      intro hall
      have : ∀ f ∈ feeds.filter (fun f => feedEnabled only f.1),
          (match f.2 with | .ok _ => none | .error e => some (e : String)) = none := by
        intro f hf
        obtain ⟨hmem, hen⟩ := List.mem_filter.mp hf
        have := hall f hmem hen
        rcases f2 : f.2 with e0 | u
        · exact absurd f2 (this e0)
        · rfl
      have : pipelineErrors only feeds = [] := List.filterMap_eq_nil_iff.mpr this
      rw [this] at herr
      cases herr
  · intro n e h
    rw [runPipeline_snd] at h
    rcases herr : pipelineErrors only feeds with _ | ⟨e0, rest⟩
    · rw [herr] at h; cases h
    · rw [herr] at h
      injection h with h1
      injection h1 with hn he
      subst hn; subst he
      constructor
      · have hlen := pipelineErrors_length only feeds
        rw [herr] at hlen
        simp only [List.length_cons] at hlen
        omega
      · apply pipelineErrors_head_decomp
        rw [herr]
        rfl

/-- Witness for C9 at a concrete run: feeds a and c fail, b succeeds; all
three are attempted, and the aggregate error is `(2, "boom-a")`. -/
theorem runPipeline_aggregate_witness :
    (runPipeline none [("a", .error "boom-a"), ("b", .ok ()), ("c", .error "boom-c")]).1 =
      ["a", "b", "c"] ∧
    ((runPipeline none [("a", .error "boom-a"), ("b", .ok ()), ("c", .error "boom-c")]).2 =
      .error (2, "boom-a") ∧
    (∀ n e, (runPipeline none
        [("a", .error "boom-a"), ("b", .ok ()), ("c", .error "boom-c")]).2 = .error (n, e) →
      n = 2 ∧ e = "boom-a")) := by
  refine ⟨(runPipeline_aggregate none _).1.trans rfl, rfl, ?_⟩
  intro n e h
  rw [show (runPipeline none
      [("a", Except.error "boom-a"), ("b", .ok ()), ("c", .error "boom-c")]).2 =
      .error (2, "boom-a") from rfl] at h
  injection h with h1
  cases h1
  exact ⟨rfl, rfl⟩

/-! ## Empty fetch windows (C5) -/

/-- A consolidated-customers header with every required column present. -/
def hdrC5 : List String :=
  ["Nombre", "Email", "Teléfono", "Frecuency", "Recency", "Money", sensitivityColumn,
   "Buy_reason", "Occasion_trigger", "Desired_outcome",
   "__last_purchase_ymd", "__discounted_orders", "__total_orders", "__money_units"]

/-- A snapshot with one customer row whose last purchase (2025-06-02) lies
after the run's end date (2025-06-01). -/
def valuesC5 : List (List Cell) :=
  [hdrC5.map Cell.str,
   [.str "John", .str "a@b.c", .str "", .int 2, .int 10, .int 100, .str "Baja",
    .str "", .str "", .str "", .str "2025-06-02", .int 0, .int 2, .float 100]]

/-- The sync outcome on that snapshot. -/
def syncOutC5 : SyncOut :=
  ⟨some "2025-06-03", false,
   [((3, 6), [[.int 2, .int (-1), .int 100, .str "Baja"]]),
    ((10, 13), [[.str "2025-06-02", .int 0, .int 2, .float 100]])],
   []⟩

/-- C5 counterexample: with the fetch window start 2025-06-03 strictly
after the end 2025-06-01, the customers sync fetches nothing — but it still
issues a nonempty batch write, and that write changes the stored Recency
cell from 10 to −1, so the store's state for the feed is not what it was
before the run. -/
theorem syncCustomers_writes_despite_empty_window :
    (syncCustomers hdrC5 false valuesC5 "2025-06-01" [] 0 1 (fun s => s)).toOption =
      some syncOutC5 ∧
    syncOutC5.startYmd = some "2025-06-03" ∧
    pyStrLt "2025-06-01" "2025-06-03" = true ∧
    syncOutC5.didFetch = false ∧
    syncOutC5.batchUpdates ≠ [] ∧
    snapCell valuesC5 0 4 = .int 10 ∧
    ((syncOutC5.batchUpdates.headD ((0, 0), [])).2.headD []).getD 1 (.str "") = .int (-1) := by
  refine ⟨by decide, rfl, by decide, rfl, by decide, by decide, by decide⟩

/-- C5 amended: when the computed window has start > end, no records are
fetched and nothing is appended; the four plain sheet-append feeds perform
no write at all, but the two remaining feeds can still write in a
nothing-to-fetch run: the klaviyo feed runs its duplicate consolidation
before the window check (rewriting its sheet whenever duplicates exist),
and the customers sync still issues its row-refresh batch write. -/
theorem emptyWindow_no_fetch (maxSaved : Ymd) (endYmd : String)
    (fetched : String → String → List (List Cell))
    (hgt : pyStrLt endYmd maxSaved.next.iso = true) :
    appendFeedStep maxSaved endYmd fetched = (none, []) ∧
    (∀ (t : ConsTable) (maxK lastK : Ymd) (fetchedK : String → String → List (List Cell)),
      pyStrLe lastK.next.iso maxK.next.iso = true →
      klaviyoFeedStep t maxK lastK fetchedK = (consolidate t, none, [])) ∧
    (∀ (header : List String) (internalAdded : Bool) (values : List (List Cell))
      (fetchedOrders : List Order) (fixedDeduction vatFactor : ℚ)
      (toDay : String → String) (r : SyncOut),
      syncCustomers header internalAdded values endYmd fetchedOrders
        fixedDeduction vatFactor toDay = .ok r →
      r.startYmd = some maxSaved.next.iso → r.didFetch = false) := by
  refine ⟨?_, ?_, ?_⟩
  · simp [appendFeedStep, hgt]
  · intro t maxK lastK fetchedK hk
    simp [klaviyoFeedStep, hk]
  · intro header internalAdded values fetchedOrders fixedDeduction vatFactor toDay r hok hs
    obtain ⟨rs, rdf, rbu, rnr⟩ := r
    dsimp only at hs ⊢
    unfold syncCustomers at hok
    dsimp only at hok
    repeat split at hok
    all_goals try cases hok
    all_goals first
      | (rw [hs]; simp [hgt])
      | simp [hgt]
    all_goals simp_all

/-- Witness for C5's amended statement at a concrete empty window: the
plain append feed writes nothing, the klaviyo feed still rewrites its
duplicated sheet, and the customers sync reports no fetch. -/
theorem emptyWindow_no_fetch_witness :
    pyStrLt "2025-06-01" (Ymd.next ⟨2025, 6, 2⟩).iso = true ∧
    appendFeedStep ⟨2025, 6, 2⟩ "2025-06-01"
      (fun _ _ => ([[Cell.int 1]] : List (List Cell))) = (none, []) ∧
    klaviyoFeedStep ⟨[[.str "2025-05-01"], [.str "2025-05-01"]], [[[.int 5], [.int 3]]]⟩
      ⟨2025, 6, 2⟩ ⟨2025, 6, 1⟩ (fun _ _ => ([[Cell.int 1]] : List (List Cell))) =
      ((1, some ⟨[[.str "2025-05-01"], [.str ""]], [[[.int 8], [.str ""]]]⟩), none, []) ∧
    syncOutC5.didFetch = false := by
  refine ⟨by decide,
    (emptyWindow_no_fetch ⟨2025, 6, 2⟩ "2025-06-01" _ (by decide)).1, ?_,
    (emptyWindow_no_fetch ⟨2025, 6, 2⟩ "2025-06-01"
       (fun _ _ => ([[Cell.int 1]] : List (List Cell))) (by decide)).2.2
      hdrC5 false valuesC5 [] 0 1 (fun s => s) syncOutC5 (by rfl) (by rfl)⟩
  rw [(emptyWindow_no_fetch ⟨2025, 6, 2⟩ "2025-06-01"
      (fun _ _ => ([[Cell.int 1]] : List (List Cell))) (by decide)).2.1
    ⟨[[.str "2025-05-01"], [.str "2025-05-01"]], [[[.int 5], [.int 3]]]⟩
    ⟨2025, 6, 2⟩ ⟨2025, 6, 1⟩ (fun _ _ => ([[Cell.int 1]] : List (List Cell)))
    (by decide)]
  decide

/-! ## String-order lemmas and the watermark maximum (C6) -/

lemma charEq_of_toNat_eq {a b : Char} (h : a.toNat = b.toNat) : a = b :=
  Char.eq_of_val_eq (UInt32.toNat.inj h)

lemma pyStrLtL_irrefl (l : List Char) : pyStrLtL l l = false := by
  induction l with
  | nil => rfl
  | cons a t ih => simp [pyStrLtL, ih]

lemma pyStrLtL_trans {a b c : List Char} (h1 : pyStrLtL a b = true)
    (h2 : pyStrLtL b c = true) : pyStrLtL a c = true := by
  induction a generalizing b c with
  | nil =>
    cases b with
    | nil => simp [pyStrLtL] at h1
    | cons x xs =>
      cases c with
      | nil => simp [pyStrLtL] at h2
      | cons y ys => rfl
  | cons x xs ih =>
    cases b with
    | nil => simp [pyStrLtL] at h1
    | cons y ys =>
      cases c with
      | nil => simp [pyStrLtL] at h2
      | cons z zs =>
        simp only [pyStrLtL] at h1 h2 ⊢
        by_cases hxy : x.toNat < y.toNat
        · by_cases hyz : y.toNat < z.toNat
          · rw [if_pos (by omega)]
          · rw [if_neg hyz] at h2
            by_cases hzy : z.toNat < y.toNat
            · rw [if_pos hzy] at h2; cases h2
            · rw [if_pos (by omega)]
        · rw [if_neg hxy] at h1
          by_cases hyx : y.toNat < x.toNat
          · rw [if_pos hyx] at h1; cases h1
          · rw [if_neg hyx] at h1
            by_cases hyz : y.toNat < z.toNat
            · rw [if_pos (by omega)]
            · rw [if_neg hyz] at h2
              by_cases hzy : z.toNat < y.toNat
              · rw [if_pos hzy] at h2; cases h2
              · rw [if_neg hzy] at h2
                rw [if_neg (by omega), if_neg (by omega)]
                exact ih h1 h2

lemma pyStrLtL_connex {a b : List Char} (h1 : pyStrLtL a b = false)
    (h2 : pyStrLtL b a = false) : a = b := by
  induction a generalizing b with
  | nil =>
    cases b with
    | nil => rfl
    | cons y ys => simp [pyStrLtL] at h1
  | cons x xs ih =>
    cases b with
    | nil => simp [pyStrLtL] at h2
    | cons y ys =>
      simp only [pyStrLtL] at h1 h2
      by_cases hxy : x.toNat < y.toNat
      · rw [if_pos hxy] at h1; cases h1
      · by_cases hyx : y.toNat < x.toNat
        · rw [if_pos hyx] at h2; cases h2
        · rw [if_neg hxy, if_neg hyx] at h1
          rw [if_neg hyx, if_neg hxy] at h2
          have hx : x = y := charEq_of_toNat_eq (by omega)
          rw [hx, ih h1 h2]

lemma pyStrLt_asymm {a b : String} (h : pyStrLt a b = true) : pyStrLt b a = false := by
  by_contra hcon
  have h2 : pyStrLt b a = true := by
    cases hq : pyStrLt b a
    · exact absurd hq hcon
    · rfl
  have := pyStrLtL_trans h h2
  rw [pyStrLtL_irrefl] at this
  cases this

lemma pyStrLe_refl (a : String) : pyStrLe a a = true := by
  simp [pyStrLe, pyStrLt, pyStrLtL_irrefl]

lemma pyStrLe_total (a b : String) : pyStrLe a b = true ∨ pyStrLe b a = true := by
  by_cases h : pyStrLt b a = true
  · right
    simp [pyStrLe, pyStrLt_asymm h]
  · left
    simp only [pyStrLe]
    cases hq : pyStrLt b a
    · rfl
    · exact absurd hq h

lemma pyStrLe_trans {a b c : String} (h1 : pyStrLe a b = true)
    (h2 : pyStrLe b c = true) : pyStrLe a c = true := by
  simp only [pyStrLe, pyStrLt, Bool.not_eq_true'] at h1 h2 ⊢
  by_contra hcon
  have hca : pyStrLtL c.data a.data = true := by
    cases hq : pyStrLtL c.data a.data
    · exact absurd hq hcon
    · rfl
  rcases hab : pyStrLtL a.data b.data with _ | _
  · have hEq : b.data = a.data := pyStrLtL_connex h1 hab
    rw [hEq] at h2
    rw [hca] at h2
    cases h2
  · have := pyStrLtL_trans hca hab
    rw [this] at h2
    cases h2

lemma listMax_spec (x : String) (xs : List String) :
    (xs.foldl (fun a b => if pyStrLt a b then b else a) x) ∈ x :: xs ∧
    ∀ d ∈ x :: xs, pyStrLe d (xs.foldl (fun a b => if pyStrLt a b then b else a) x) = true := by
  induction xs generalizing x with
  | nil =>
    refine ⟨by simp, ?_⟩
    intro d hd
    rcases List.mem_singleton.mp hd with rfl
    exact pyStrLe_refl d
  | cons b rest ih =>
    simp only [List.foldl_cons]
    obtain ⟨hmem, hbound⟩ := ih (if pyStrLt x b then b else x)
    have hle_step : ∀ z ∈ [x, b], pyStrLe z (if pyStrLt x b then b else x) = true := by
      intro z hz
      rcases List.mem_cons.mp hz with rfl | hz2
      · by_cases hxb : pyStrLt z b = true
        · rw [if_pos hxb]
          simp [pyStrLe, pyStrLt_asymm hxb]
        · rw [if_neg hxb]
          exact pyStrLe_refl z
      · rcases List.mem_cons.mp hz2 with rfl | h3
        · by_cases hxb : pyStrLt x z = true
          · rw [if_pos hxb]
            exact pyStrLe_refl z
          · rw [if_neg hxb]
            simp only [pyStrLe, Bool.not_eq_true']
            cases hq : pyStrLt x z
            · rfl
            · exact absurd hq hxb
        · cases h3
    have hmax_le : pyStrLe (if pyStrLt x b then b else x)
        (rest.foldl (fun a b => if pyStrLt a b then b else a)
          (if pyStrLt x b then b else x)) = true :=
      hbound _ (by simp)
    constructor
    · rcases List.mem_cons.mp hmem with hm | hm
      · rw [hm]
        by_cases hxb : pyStrLt x b = true
        · rw [if_pos hxb]; simp
        · rw [if_neg hxb]; simp
      · exact List.mem_cons.mpr (Or.inr (List.mem_cons.mpr (Or.inr hm)))
    · intro d hd
      rcases List.mem_cons.mp hd with rfl | hd2
      · exact pyStrLe_trans (hle_step d (by simp)) hmax_le
      · rcases List.mem_cons.mp hd2 with rfl | hd3
        · exact pyStrLe_trans (hle_step d (by simp)) hmax_le
        · exact hbound d (by simp [hd3])

/-- C6 amended: `get_max_ymd_in_column` errors on a missing header row
with the fixed message `"sheet has no header row"` (which does NOT name
the expected candidates); errors, naming the expected candidates, when no
header cell equals any candidate; otherwise it selects the first matching
header cell (first match wins), coerces every cell of that column below
the header, and returns the maximum successfully coerced date, absent
when none coerce. -/
theorem getMaxYmd_spec (header : List String) (getCol : Nat → List (List Cell))
    (dateHeaders : List String) :
    (header = [] →
      getMaxYmdInColumn header getCol dateHeaders = .error "sheet has no header row") ∧
    (header ≠ [] → (∀ h ∈ header, h ∉ dateHeaders) →
      getMaxYmdInColumn header getCol dateHeaders =
        .error ("sheet missing date header (expected one of: " ++
          String.intercalate ", " dateHeaders ++ ")")) ∧
    (∀ i, header.findIdx? (fun h => dateHeaders.contains h) = some i →
      ∃ r, getMaxYmdInColumn header getCol dateHeaders = .ok r ∧
        r.header = header ∧
        r.dateColumn = header.getD i "" ∧
        header.getD i "" ∈ dateHeaders ∧
        (∀ j, j < i → header.getD j "" ∉ dateHeaders) ∧
        (r.maxDate = none ↔ ((getCol i).filterMap List.head?).filterMap coerceYmd = []) ∧
        (∀ m, r.maxDate = some m →
          m ∈ ((getCol i).filterMap List.head?).filterMap coerceYmd ∧
          ∀ d ∈ ((getCol i).filterMap List.head?).filterMap coerceYmd,
            pyStrLe d m = true)) := by
  refine ⟨?_, ?_, ?_⟩
  · intro h
    subst h
    rfl
  · intro hne hnomatch
    have hfind : header.findIdx? (fun h => dateHeaders.contains h) = none := by
      rw [List.findIdx?_eq_none_iff]
      intro x hx
      simpa using hnomatch x hx
    unfold getMaxYmdInColumn
    rw [if_neg (by simpa [List.isEmpty_iff] using hne), hfind]
  · intro i hfind
    obtain ⟨hlen, hp, hprev⟩ := List.findIdx?_eq_some_iff_getElem.mp hfind
    have hgetd : header.getD i "" = header[i] := List.getD_eq_getElem header "" hlen
    unfold getMaxYmdInColumn
    rw [if_neg (by simp [List.isEmpty_iff]; intro hc; rw [hc] at hlen; simp at hlen), hfind]
    refine ⟨_, rfl, rfl, rfl, ?_, ?_, ?_, ?_⟩
    · rw [hgetd]
      simpa using hp
    · intro j hj
      have := hprev j hj
      rw [List.getD_eq_getElem header "" (Nat.lt_trans hj hlen)]
      simpa using this
    · rcases hdates : ((getCol i).filterMap List.head?).filterMap coerceYmd with _ | ⟨d, ds⟩
      · simp [listMax, hdates]
      · simp [listMax, hdates]
    · intro m hm
      rcases hdates : ((getCol i).filterMap List.head?).filterMap coerceYmd with _ | ⟨d, ds⟩
      · rw [hdates] at hm
        simp [listMax] at hm
      · rw [hdates] at hm
        simp only [listMax, Option.some.injEq] at hm
        obtain ⟨hmem, hbound⟩ := listMax_spec d ds
        rw [hm] at hmem hbound
        exact ⟨hmem, hbound⟩

/-- Witness for C6: the spec's example column (`2025-01-01`, `01/02/2025`
as D/M/Y, `garbage`) yields the maximum `2025-02-01`. -/
theorem getMaxYmd_spec_witness :
    List.findIdx? (fun h => ["Fecha", "Día"].contains h) ["Fecha"] = some 0 ∧
    (∃ r, getMaxYmdInColumn ["Fecha"]
        (fun _ => [[.str "2025-01-01"], [.str "01/02/2025"], [.str "garbage"]])
        ["Fecha", "Día"] = .ok r ∧
      r.header = ["Fecha"] ∧
      r.dateColumn = ["Fecha"].getD 0 "" ∧
      ["Fecha"].getD 0 "" ∈ ["Fecha", "Día"] ∧
      (∀ j, j < 0 → ["Fecha"].getD j "" ∉ ["Fecha", "Día"]) ∧
      (r.maxDate = none ↔
        (((fun (_ : Nat) => [[Cell.str "2025-01-01"], [Cell.str "01/02/2025"],
          [Cell.str "garbage"]]) 0).filterMap List.head?).filterMap coerceYmd = []) ∧
      (∀ m, r.maxDate = some m →
        m ∈ (((fun (_ : Nat) => [[Cell.str "2025-01-01"], [Cell.str "01/02/2025"],
          [Cell.str "garbage"]]) 0).filterMap List.head?).filterMap coerceYmd ∧
        ∀ d ∈ (((fun (_ : Nat) => [[Cell.str "2025-01-01"], [Cell.str "01/02/2025"],
          [Cell.str "garbage"]]) 0).filterMap List.head?).filterMap coerceYmd,
          pyStrLe d m = true)) ∧
    getMaxYmdInColumn ["Fecha"]
        (fun _ => [[.str "2025-01-01"], [.str "01/02/2025"], [.str "garbage"]])
        ["Fecha", "Día"] = .ok ⟨["Fecha"], "Fecha", some "2025-02-01"⟩ :=
  ⟨by decide,
   (getMaxYmd_spec ["Fecha"]
     (fun _ => [[.str "2025-01-01"], [.str "01/02/2025"], [.str "garbage"]])
     ["Fecha", "Día"]).2.2 0 (by decide),
   rfl⟩

/-- C6 counterexample: on a sheet with no header row the raised
configuration error is the fixed string `"sheet has no header row"`,
which does not name any of the expected header candidates (unlike the
no-matching-header error, only that branch lists them). -/
theorem getMaxYmd_missing_header_counterexample :
    getMaxYmdInColumn [] (fun _ => []) ["Fecha", "Día", "Dia"] =
      .error "sheet has no header row" ∧
    ∀ c ∈ ["Fecha", "Día", "Dia"],
      ¬ (c.data <:+: "sheet has no header row".data) :=
  ⟨rfl, by decide⟩

/-! ## Daily aggregation rows (C10) -/

lemma ymd_lt_next (t : Ymd) : Ymd.lt t t.next = true := by
  unfold Ymd.next
  by_cases h1 : t.day < daysInMonth t.year t.month
  · rw [if_pos h1]
    simp [Ymd.lt, Nat.blt_eq]
  · rw [if_neg h1]
    by_cases h2 : t.month < 12
    · rw [if_pos h2]
      simp [Ymd.lt, Nat.blt_eq, h2]
    · rw [if_neg h2]
      simp [Ymd.lt, Nat.blt_eq]

lemma chain_dateRange (s e : Ymd) :
    List.Chain' (fun a b => Ymd.lt a b = true) (dateRangeInclusive s e) := by
  unfold dateRangeInclusive
  split
  · simp
  · rcases hk : ((rataDie e - rataDie s) + 1).toNat with _ | n
    · simp
    · rw [List.chain'_map]
      rw [List.chain'_range_succ]
      intro m hm
      show Ymd.lt (s.addNat m) (s.addNat m).next = true
      exact ymd_lt_next _

lemma dayStats_nil_of_no_match (orders : List Order) (toDay : String → String)
    (key : String) (h : ∀ o ∈ orders, orderDayKey toDay o ≠ some key) :
    dayStats orders toDay key = (0, 0, 0, 0) := by
  induction orders with
  | nil => rfl
  | cons o os ih =>
    have ho : orderDayKey toDay o ≠ some key := h o (by simp)
    simp only [dayStats, List.foldl_cons, if_neg ho]
    exact ih (fun o2 ho2 => h o2 (by simp [ho2]))

lemma roundHAZ_zero : roundHAZ 0 = 0 := by
  have hfl : ⌊(0 : ℚ) + 1/2⌋ = 0 := by
    rw [Int.floor_eq_zero_iff]
    constructor
    · norm_num
    · norm_num
  simp only [roundHAZ, if_pos (le_refl (0 : ℚ))]
  exact hfl

/-- C10: for a valid window with start ≤ end, `aggregate_orders_to_rows`
returns exactly one row per calendar day of the inclusive range, in
ascending date order, `(end − start) + 1` rows in total; a day with no
matching orders yields a row with all counts and revenues 0; and an order
whose `createdAt` is missing or not a string is skipped rather than
failing. -/
theorem aggregateOrders_spec (orders : List Order) (startYmd endYmd : String)
    (toDay : String → String) (fixedDeduction : ℤ) (vatFactor : ℚ)
    (ds de : Ymd) (hs : parseYmd startYmd = some ds) (he : parseYmd endYmd = some de)
    (hle : Ymd.lt de ds = false) (hnn : 0 ≤ rataDie de - rataDie ds) :
    ∃ rows, aggregateOrdersToRows orders startYmd endYmd toDay fixedDeduction vatFactor =
        .ok rows ∧
      rows.length = (rataDie de - rataDie ds).toNat + 1 ∧
      rows.map DayRow.dia = (dateRangeInclusive ds de).map Ymd.iso ∧
      List.Chain' (fun a b => Ymd.lt a b = true) (dateRangeInclusive ds de) ∧
      (∀ row ∈ rows, (∀ o ∈ orders, orderDayKey toDay o ≠ some row.dia) →
        row.ordersNew = 0 ∧ row.ordersReturning = 0 ∧
        row.revenueNew = 0 ∧ row.revenueReturning = 0) ∧
      (∀ o : Order, o.createdAt = none →
        aggregateOrdersToRows (o :: orders) startYmd endYmd toDay fixedDeduction vatFactor =
          aggregateOrdersToRows orders startYmd endYmd toDay fixedDeduction vatFactor) := by
  have hrun : aggregateOrdersToRows orders startYmd endYmd toDay fixedDeduction vatFactor =
      .ok ((dateRangeInclusive ds de).map (fun day =>
        let acc := dayStats orders toDay day.iso
        ⟨day.iso, (acc.1 : ℤ), (acc.2.1 : ℤ),
         roundHAZ ((acc.2.2.1 - (fixedDeduction : ℚ) * (acc.1 : ℚ)) / vatFactor),
         roundHAZ ((acc.2.2.2 - (fixedDeduction : ℚ) * (acc.2.1 : ℚ)) / vatFactor)⟩)) := by
    unfold aggregateOrdersToRows
    rw [hs, he]
  refine ⟨_, hrun, ?_, ?_, chain_dateRange ds de, ?_, ?_⟩
  · simp only [List.length_map]
    unfold dateRangeInclusive
    rw [if_neg (by simp [hle])]
    simp only [List.length_map, List.length_range]
    omega
  · simp [List.map_map]
  · intro row hrow hnomatch
    simp only [List.mem_map] at hrow
    obtain ⟨day, hday, hbuild⟩ := hrow
    have hdia : row.dia = day.iso := by rw [← hbuild]
    have hstats : dayStats orders toDay day.iso = (0, 0, 0, 0) := by
      apply dayStats_nil_of_no_match
      intro o ho
      rw [← hdia]
      exact hnomatch o ho
    rw [← hbuild]
    simp only [hstats]
    refine ⟨rfl, rfl, ?_, ?_⟩ <;>
      simp [roundHAZ_zero]
  · intro o ho
    have hst : ∀ key, dayStats (o :: orders) toDay key = dayStats orders toDay key := by
      intro key
      simp [dayStats, orderDayKey, ho]
    unfold aggregateOrdersToRows
    rw [hs, he]
    dsimp only
    congr 1
    apply List.map_congr_left
    intro day _
    rw [hst]

/-- Concrete order list for the C10 witness: one order on 2025-01-02 plus
one with a missing `createdAt`. -/
def ordersC10 : List Order :=
  [{ Order.none0 with
      createdAt := some "2025-01-02T10:00:00Z"
      totalPriceSet := some ⟨some "10", none⟩ },
   { Order.none0 with createdAt := none }]

/-- Concrete day-bucketing collaborator for the C10 witness. -/
def toDayC10 : String → String := fun s => ⟨s.data.take 10⟩

/-- Witness for C10 on a 3-day window. -/
theorem aggregateOrders_spec_witness :
    (parseYmd "2025-01-01" = some ⟨2025, 1, 1⟩ ∧ parseYmd "2025-01-03" = some ⟨2025, 1, 3⟩ ∧
      Ymd.lt ⟨2025, 1, 3⟩ ⟨2025, 1, 1⟩ = false ∧
      0 ≤ rataDie ⟨2025, 1, 3⟩ - rataDie ⟨2025, 1, 1⟩) ∧
    (∃ rows, aggregateOrdersToRows ordersC10 "2025-01-01" "2025-01-03" toDayC10 0 1 =
        .ok rows ∧
      rows.length = (rataDie ⟨2025, 1, 3⟩ - rataDie ⟨2025, 1, 1⟩).toNat + 1 ∧
      rows.map DayRow.dia =
        (dateRangeInclusive ⟨2025, 1, 1⟩ ⟨2025, 1, 3⟩).map Ymd.iso ∧
      List.Chain' (fun a b => Ymd.lt a b = true)
        (dateRangeInclusive ⟨2025, 1, 1⟩ ⟨2025, 1, 3⟩) ∧
      (∀ row ∈ rows, (∀ o ∈ ordersC10, orderDayKey toDayC10 o ≠ some row.dia) →
        row.ordersNew = 0 ∧ row.ordersReturning = 0 ∧
        row.revenueNew = 0 ∧ row.revenueReturning = 0) ∧
      (∀ o : Order, o.createdAt = none →
        aggregateOrdersToRows (o :: ordersC10) "2025-01-01" "2025-01-03" toDayC10 0 1 =
          aggregateOrdersToRows ordersC10 "2025-01-01" "2025-01-03" toDayC10 0 1)) :=
  ⟨⟨by decide, by decide, by decide, by decide⟩,
   aggregateOrders_spec ordersC10 "2025-01-01" "2025-01-03" toDayC10 0 1
     ⟨2025, 1, 1⟩ ⟨2025, 1, 3⟩ (by decide) (by decide) (by decide) (by decide)⟩

/-! ## Consolidation rewrite characterization (C4) -/

instance pyStrLeIsTotal : IsTotal String (fun a b => pyStrLe a b = true) :=
  ⟨pyStrLe_total⟩

instance pyStrLeIsTrans : IsTrans String (fun a b => pyStrLe a b = true) :=
  ⟨fun _ _ _ => pyStrLe_trans⟩

lemma map_sub_one_sum (xs : List Nat) (h : ∀ x ∈ xs, 1 ≤ x) :
    (xs.map (· - 1)).sum = xs.sum - xs.length ∧ xs.length ≤ xs.sum := by
  induction xs with
  | nil => simp
  | cons x rest ih =>
    obtain ⟨ih1, ih2⟩ := ih (fun y hy => h y (by simp [hy]))
    have hx : 1 ≤ x := h x (by simp)
    simp only [List.map_cons, List.sum_cons, List.length_cons]
    omega

lemma consRemoved_eq (t : ConsTable) :
    consRemoved t = (consCoerced t).length - (consDistinct t).length := by
  unfold consRemoved consDistinct
  have hmap : ((consCoerced t).dedup).map (fun d => (consCoerced t).count d - 1) =
      (((consCoerced t).dedup).map (fun d => (consCoerced t).count d)).map (· - 1) := by
    rw [List.map_map]
    rfl
  rw [hmap]
  have hpos : ∀ x ∈ ((consCoerced t).dedup).map (fun d => (consCoerced t).count d), 1 ≤ x := by
    intro x hx
    simp only [List.mem_map] at hx
    obtain ⟨d, hd, hcount⟩ := hx
    have : d ∈ consCoerced t := List.mem_dedup.mp hd
    rw [← hcount]
    exact List.count_pos_iff.mpr this
  rw [(map_sub_one_sum _ hpos).1]
  rw [List.sum_map_count_dedup_eq_length, List.length_map]

lemma consSorted_length_le (t : ConsTable) :
    (consSorted t).length ≤ consDataRows t := by
  have h1 : (consSorted t).length = (consDistinct t).length :=
    (List.perm_insertionSort _ _).length_eq
  have h2 : (consDistinct t).length ≤ (consCoerced t).length :=
    (List.dedup_sublist _).length_le
  have h3 : (consCoerced t).length ≤ consDataRows t := by
    have := List.length_filterMap_le (consRowYmd t) (List.range (consDataRows t))
    simpa [consCoerced] using this
  omega

/-- C4 counterexample: a table with one non-coercing date row and two
duplicate rows is rewritten and the call returns 1, while
`original_row_count − distinct_date_count = 3 − 1 = 2`. -/
theorem consolidate_count_counterexample :
    (consolidate ⟨[[.str "garbage"], [.str "2025-01-01"], [.str "2025-01-01"]],
      [[[.int 1], [.int 2], [.int 3]]]⟩).2.isSome = true ∧
    (consolidate ⟨[[.str "garbage"], [.str "2025-01-01"], [.str "2025-01-01"]],
      [[[.int 1], [.int 2], [.int 3]]]⟩).1 = 1 ∧
    consDataRows ⟨[[.str "garbage"], [.str "2025-01-01"], [.str "2025-01-01"]],
      [[[.int 1], [.int 2], [.int 3]]]⟩ = 3 ∧
    (consDistinct ⟨[[.str "garbage"], [.str "2025-01-01"], [.str "2025-01-01"]],
      [[[.int 1], [.int 2], [.int 3]]]⟩).length = 1 ∧
    (consolidate ⟨[[.str "garbage"], [.str "2025-01-01"], [.str "2025-01-01"]],
      [[[.int 1], [.int 2], [.int 3]]]⟩).1 ≠
      consDataRows ⟨[[.str "garbage"], [.str "2025-01-01"], [.str "2025-01-01"]],
        [[[.int 1], [.int 2], [.int 3]]]⟩ -
      (consDistinct ⟨[[.str "garbage"], [.str "2025-01-01"], [.str "2025-01-01"]],
        [[[.int 1], [.int 2], [.int 3]]]⟩).length := by
  refine ⟨by decide, by decide, by decide, by decide, by decide⟩

/-- C4 amended: whenever the table is rewritten, `consolidate_sum_by_date`
writes one row per distinct coerced date, sorted ascending, blanks in the
remaining row slots, each sum column holding the formatted sum of the
group's coercible numeric cells (non-coercible cells contributing 0), and
returns `coercible_row_count − distinct_date_count` (rows whose date does
not coerce are dropped and are not counted). -/
theorem consolidate_rewrite_spec (t : ConsTable) (k : Nat) (t2 : ConsTable)
    (h : consolidate t = (k, some t2)) :
    List.Sorted (fun a b => pyStrLe a b = true) (consSorted t) ∧
    (consSorted t).Perm (consDistinct t) ∧
    (consSorted t).Nodup ∧
    t2.dateCol = (consSorted t).map (fun d => [Cell.str d]) ++
      List.replicate (consDataRows t - (consSorted t).length) [Cell.str ""] ∧
    t2.sumCols = t.sumCols.map (fun col =>
      (consSorted t).map (fun d => [fmtCell (consTotal t d col)]) ++
      List.replicate (consDataRows t - (consSorted t).length) [Cell.str ""]) ∧
    k = (consCoerced t).length - (consDistinct t).length := by
  have hsorted : List.Sorted (fun a b => pyStrLe a b = true) (consSorted t) :=
    List.sorted_insertionSort _ _
  have hperm : (consSorted t).Perm (consDistinct t) := List.perm_insertionSort _ _
  have hnodup : (consSorted t).Nodup := hperm.nodup_iff.mpr (List.nodup_dedup _)
  have hlen := consSorted_length_le t
  have htake : min (consSorted t).length (consDataRows t) = (consSorted t).length :=
    Nat.min_eq_left hlen
  unfold consolidate at h
  dsimp only at h
  split at h
  · simp at h
  · split at h
    · simp at h
    · rw [htake, List.take_length] at h
      injection h with h1 h2
      injection h2 with h2
      refine ⟨hsorted, hperm, hnodup, ?_, ?_, ?_⟩
      · rw [← h2]
      · rw [← h2]
      · rw [← h1, consRemoved_eq]

/-- Witness for C4: the spec's example — rows `(2025-01-01, 5)` and
`(2025-01-01, 3)` — is rewritten to the single content row
`(2025-01-01, 8)` plus one blank slot, and the call returns 1. -/
theorem consolidate_rewrite_spec_witness :
    consolidate ⟨[[.str "2025-01-01"], [.str "2025-01-01"]], [[[.int 5], [.int 3]]]⟩ =
      (1, some ⟨[[.str "2025-01-01"], [.str ""]], [[[.int 8], [.str ""]]]⟩) ∧
    (List.Sorted (fun a b => pyStrLe a b = true)
      (consSorted ⟨[[.str "2025-01-01"], [.str "2025-01-01"]], [[[.int 5], [.int 3]]]⟩) ∧
    (consSorted ⟨[[.str "2025-01-01"], [.str "2025-01-01"]], [[[.int 5], [.int 3]]]⟩).Perm
      (consDistinct ⟨[[.str "2025-01-01"], [.str "2025-01-01"]], [[[.int 5], [.int 3]]]⟩) ∧
    (consSorted ⟨[[.str "2025-01-01"], [.str "2025-01-01"]], [[[.int 5], [.int 3]]]⟩).Nodup ∧
    (⟨[[.str "2025-01-01"], [.str ""]], [[[.int 8], [.str ""]]]⟩ : ConsTable).dateCol =
      (consSorted ⟨[[.str "2025-01-01"], [.str "2025-01-01"]],
        [[[.int 5], [.int 3]]]⟩).map (fun d => [Cell.str d]) ++
      List.replicate (consDataRows ⟨[[.str "2025-01-01"], [.str "2025-01-01"]],
        [[[.int 5], [.int 3]]]⟩ -
        (consSorted ⟨[[.str "2025-01-01"], [.str "2025-01-01"]],
          [[[.int 5], [.int 3]]]⟩).length) [Cell.str ""] ∧
    (⟨[[.str "2025-01-01"], [.str ""]], [[[.int 8], [.str ""]]]⟩ : ConsTable).sumCols =
      (⟨[[.str "2025-01-01"], [.str "2025-01-01"]],
        [[[.int 5], [.int 3]]]⟩ : ConsTable).sumCols.map (fun col =>
        (consSorted ⟨[[.str "2025-01-01"], [.str "2025-01-01"]],
          [[[.int 5], [.int 3]]]⟩).map (fun d =>
            [fmtCell (consTotal ⟨[[.str "2025-01-01"], [.str "2025-01-01"]],
              [[[.int 5], [.int 3]]]⟩ d col)]) ++
        List.replicate (consDataRows ⟨[[.str "2025-01-01"], [.str "2025-01-01"]],
          [[[.int 5], [.int 3]]]⟩ -
          (consSorted ⟨[[.str "2025-01-01"], [.str "2025-01-01"]],
            [[[.int 5], [.int 3]]]⟩).length) [Cell.str ""]) ∧
    1 = (consCoerced ⟨[[.str "2025-01-01"], [.str "2025-01-01"]],
        [[[.int 5], [.int 3]]]⟩).length -
      (consDistinct ⟨[[.str "2025-01-01"], [.str "2025-01-01"]],
        [[[.int 5], [.int 3]]]⟩).length) :=
  ⟨by decide,
   consolidate_rewrite_spec ⟨[[.str "2025-01-01"], [.str "2025-01-01"]],
     [[[.int 5], [.int 3]]]⟩ 1
     ⟨[[.str "2025-01-01"], [.str ""]], [[[.int 8], [.str ""]]]⟩ (by decide)⟩

/-! ## Consolidation idempotence (C3) -/

lemma digitChar_isDigit (k : Nat) (h : k < 10) : (Nat.digitChar k).isDigit = true := by
  interval_cases k <;> decide

lemma digitChar_mod10_isDigit (n : Nat) : (Nat.digitChar (n % 10)).isDigit = true :=
  digitChar_isDigit _ (Nat.mod_lt _ (by norm_num))

lemma digit_not_pySpace (c : Char) (h : c.isDigit = true) : isPySpace c = false := by
  have hx : 48 ≤ c.toNat ∧ c.toNat ≤ 57 := by
    simp only [Char.isDigit, Bool.and_eq_true, decide_eq_true_eq] at h
    exact ⟨h.1, h.2⟩
  simp only [isPySpace, Bool.or_eq_false_iff, beq_eq_false_iff_ne, ne_eq]
  refine ⟨⟨⟨⟨⟨?_, ?_⟩, ?_⟩, ?_⟩, ?_⟩, ?_⟩ <;>
    (intro hc; first
      | (subst hc; revert hx; decide)
      | (rw [show c.toNat = c.val.toNat from rfl, hc] at hx; revert hx; decide))

lemma pyStripList_ymd (y1 y2 y3 y4 m1 m2 d1 d2 : Char)
    (hy1 : y1.isDigit = true) (hd2 : d2.isDigit = true) :
    pyStripList [y1, y2, y3, y4, '-', m1, m2, '-', d1, d2] =
      [y1, y2, y3, y4, '-', m1, m2, '-', d1, d2] := by
  simp [pyStripList, List.dropWhile, digit_not_pySpace _ hy1, digit_not_pySpace _ hd2]

lemma iso_shape (t : Ymd) : isYmdShapeList (Ymd.iso t).data = true := by
  show isYmdShapeList (pad4 t.year ++ '-' :: (pad2 t.month ++ '-' :: pad2 t.day)) = true
  simp [pad4, pad2, isYmdShapeList, digitChar_mod10_isDigit]

lemma ymdShape_recoerce (l : List Char) (h : isYmdShapeList l = true) :
    coerceYmd (.str ⟨l⟩) = some ⟨l⟩ := by
  match l, h with
  | [y1, y2, y3, y4, s1, m1, m2, s2, d1, d2], h =>
    have h0 := h
    simp only [isYmdShapeList, Bool.and_eq_true, beq_iff_eq] at h
    obtain ⟨⟨⟨⟨⟨⟨⟨⟨⟨hy1, hy2⟩, hy3⟩, hy4⟩, hs1⟩, hm1⟩, hm2⟩, hs2⟩, hd1⟩, hd2⟩ := h
    subst hs1
    subst hs2
    show coerceYmd (.str ⟨[y1, y2, y3, y4, '-', m1, m2, '-', d1, d2]⟩) = _
    simp only [coerceYmd]
    rw [pyStripList_ymd y1 y2 y3 y4 m1 m2 d1 d2 hy1 hd2]
    rw [if_neg (by simp), if_pos h0]

lemma coerceYmd_shape (c : Cell) (s : String) (h : coerceYmd c = some s) :
    isYmdShapeList s.data = true := by
  cases c with
  | str s0 =>
    simp only [coerceYmd] at h
    split at h
    · cases h
    · split at h
      · injection h with h
        subst h
        assumption
      · split at h
        · split at h
          · injection h with h
            subst h
            exact iso_shape _
          · cases h
        · split at h
          · injection h with h
            subst h
            rename_i hcond
            exact hcond.2
          · cases h
  | int n =>
    simp only [coerceYmd, serialToIso] at h
    rw [Option.map_eq_some'] at h
    obtain ⟨a, -, ha⟩ := h
    subst ha
    exact iso_shape _
  | float q =>
    simp only [coerceYmd, serialToIso] at h
    rw [Option.map_eq_some'] at h
    obtain ⟨a, -, ha⟩ := h
    subst ha
    exact iso_shape _
  | boolean b =>
    simp only [coerceYmd, serialToIso] at h
    rw [Option.map_eq_some'] at h
    obtain ⟨a, -, ha⟩ := h
    subst ha
    exact iso_shape _
  | nan => cases h
  | inf => cases h
  | ninf => cases h
  | empty => cases h

lemma coerceYmd_recoerce (c : Cell) (s : String) (h : coerceYmd c = some s) :
    coerceYmd (.str s) = some s :=
  ymdShape_recoerce s.data (coerceYmd_shape c s h)

lemma consSorted_recoerce (t : ConsTable) (d : String) (hd : d ∈ consSorted t) :
    coerceYmd (.str d) = some d := by
  have hd2 : d ∈ consDistinct t := ((List.perm_insertionSort _ _).mem_iff).mp hd
  have hd3 : d ∈ consCoerced t := List.mem_dedup.mp hd2
  obtain ⟨r, -, hr⟩ := List.mem_filterMap.mp hd3
  exact coerceYmd_recoerce _ _ hr

lemma foldl_max_eq (l : List Nat) (a : Nat) (h : ∀ x ∈ l, x ≤ a) : l.foldl max a = a := by
  induction l with
  | nil => rfl
  | cons x xs ih =>
    simp only [List.foldl_cons]
    rw [Nat.max_eq_left (h x (List.mem_cons_self _ _))]
    exact ih (fun y hy => h y (List.mem_cons_of_mem _ hy))

lemma consDataRows_written (t : ConsTable) :
    consDataRows ⟨(consSorted t).map (fun d => [Cell.str d]) ++
        List.replicate (consDataRows t - (consSorted t).length) [Cell.str ""],
      t.sumCols.map (fun col =>
        (consSorted t).map (fun d => [fmtCell (consTotal t d col)]) ++
        List.replicate (consDataRows t - (consSorted t).length) [Cell.str ""])⟩ =
      consDataRows t := by
  have hlen := consSorted_length_le t
  show (((t.sumCols.map _).map List.length)).foldl max
      ((consSorted t).map (fun d => [Cell.str d]) ++
        List.replicate (consDataRows t - (consSorted t).length) [Cell.str ""]).length =
    consDataRows t
  have hdl : ((consSorted t).map (fun d => [Cell.str d]) ++
      List.replicate (consDataRows t - (consSorted t).length) [Cell.str ""]).length =
      consDataRows t := by
    simp only [List.length_append, List.length_map, List.length_replicate]
    omega
  rw [hdl]
  apply foldl_max_eq
  intro x hx
  simp only [List.map_map, List.mem_map, Function.comp_apply, List.length_append,
    List.length_map, List.length_replicate] at hx
  obtain ⟨col, -, hcol⟩ := hx
  omega

lemma colCell_written_lt (t : ConsTable) (r : Nat) (hr : r < (consSorted t).length) :
    colCell ((consSorted t).map (fun d => [Cell.str d]) ++
        List.replicate (consDataRows t - (consSorted t).length) [Cell.str ""]) r =
      Cell.str ((consSorted t).get ⟨r, hr⟩) := by
  unfold colCell
  have hg : ((consSorted t).map (fun d => [Cell.str d]) ++
      List.replicate (consDataRows t - (consSorted t).length) [Cell.str ""]).get? r =
      some [Cell.str ((consSorted t).get ⟨r, hr⟩)] := by
    rw [List.get?_eq_getElem?, List.getElem?_append]
    rw [if_pos (by simpa using hr)]
    rw [List.getElem?_map, List.getElem?_eq_getElem hr]
    simp [List.get_eq_getElem]
  rw [hg]

lemma colCell_written_ge (t : ConsTable) (r : Nat) (hge : (consSorted t).length ≤ r)
    (hlt : r < consDataRows t) :
    colCell ((consSorted t).map (fun d => [Cell.str d]) ++
        List.replicate (consDataRows t - (consSorted t).length) [Cell.str ""]) r =
      Cell.str "" := by
  have hlen := consSorted_length_le t
  unfold colCell
  have hg : ((consSorted t).map (fun d => [Cell.str d]) ++
      List.replicate (consDataRows t - (consSorted t).length) [Cell.str ""]).get? r =
      some [Cell.str ""] := by
    rw [List.get?_eq_getElem?, List.getElem?_append_right (by simpa using hge)]
    rw [List.getElem?_replicate, if_pos (by simp; omega)]
  rw [hg]

lemma consCoerced_written (t : ConsTable) :
    consCoerced ⟨(consSorted t).map (fun d => [Cell.str d]) ++
        List.replicate (consDataRows t - (consSorted t).length) [Cell.str ""],
      t.sumCols.map (fun col =>
        (consSorted t).map (fun d => [fmtCell (consTotal t d col)]) ++
        List.replicate (consDataRows t - (consSorted t).length) [Cell.str ""])⟩ =
      consSorted t := by
  have hlen := consSorted_length_le t
  unfold consCoerced
  rw [consDataRows_written t]
  rw [show List.range (consDataRows t) =
      List.range ((consSorted t).length + (consDataRows t - (consSorted t).length))
    by rw [Nat.add_sub_cancel' hlen]]
  rw [List.range_add, List.filterMap_append]
  have h1 : (List.range (consSorted t).length).filterMap
      (consRowYmd ⟨(consSorted t).map (fun d => [Cell.str d]) ++
        List.replicate (consDataRows t - (consSorted t).length) [Cell.str ""],
      t.sumCols.map (fun col =>
        (consSorted t).map (fun d => [fmtCell (consTotal t d col)]) ++
        List.replicate (consDataRows t - (consSorted t).length) [Cell.str ""])⟩) =
      consSorted t := by
    have hcongr : ∀ r ∈ List.range (consSorted t).length,
        consRowYmd ⟨(consSorted t).map (fun d => [Cell.str d]) ++
          List.replicate (consDataRows t - (consSorted t).length) [Cell.str ""],
        t.sumCols.map (fun col =>
          (consSorted t).map (fun d => [fmtCell (consTotal t d col)]) ++
          List.replicate (consDataRows t - (consSorted t).length) [Cell.str ""])⟩ r =
        (some ∘ fun r => (consSorted t).getD r "") r := by
      intro r hr
      have hrlt : r < (consSorted t).length := List.mem_range.mp hr
      show coerceYmd (colCell _ r) = some ((consSorted t).getD r "")
      rw [colCell_written_lt t r hrlt]
      rw [consSorted_recoerce t _ (List.get_mem _ r hrlt)]
      rw [List.get_eq_getElem, List.getD_eq_getElem _ _ hrlt]
    rw [List.filterMap_congr hcongr, List.filterMap_eq_map]
    apply List.ext_getElem
    · simp
    · intro i h1 h2
      simp only [List.getElem_map, List.getElem_range]
      exact List.getD_eq_getElem _ _ h2
  have h2 : ((List.range (consDataRows t - (consSorted t).length)).map
      ((consSorted t).length + ·)).filterMap
      (consRowYmd ⟨(consSorted t).map (fun d => [Cell.str d]) ++
        List.replicate (consDataRows t - (consSorted t).length) [Cell.str ""],
      t.sumCols.map (fun col =>
        (consSorted t).map (fun d => [fmtCell (consTotal t d col)]) ++
        List.replicate (consDataRows t - (consSorted t).length) [Cell.str ""])⟩) = [] := by
    rw [List.filterMap_eq_nil_iff]
    intro x hx
    obtain ⟨r, hr, hrx⟩ := List.mem_map.mp hx
    have hrlt : r < consDataRows t - (consSorted t).length := List.mem_range.mp hr
    subst hrx
    show coerceYmd (colCell _ ((consSorted t).length + r)) = none
    rw [colCell_written_ge t ((consSorted t).length + r) (by omega) (by omega)]
    rfl
  rw [h1, h2, List.append_nil]

lemma consRemoved_zero_of_nodup (t : ConsTable) (h : (consCoerced t).Nodup) :
    consRemoved t = 0 := by
  unfold consRemoved consDistinct
  apply List.sum_eq_zero
  intro x hx
  simp only [List.mem_map] at hx
  obtain ⟨d, hd, hdx⟩ := hx
  rw [← hdx, List.count_eq_one_of_mem h (List.mem_dedup.mp hd)]
  rfl

lemma consolidate_of_removed_zero (t : ConsTable) (h : consRemoved t = 0) :
    consolidate t = (0, none) := by
  unfold consolidate
  dsimp only
  split
  · rfl
  · simp [h]

lemma consolidate_snd_none (t : ConsTable) (hc : (consolidate t).2 = none) :
    consolidate t = (0, none) := by
  by_cases h1 : consDataRows t = 0
  · unfold consolidate
    dsimp only
    rw [if_pos h1]
  · by_cases h2 : consRemoved t = 0
    · exact consolidate_of_removed_zero t h2
    · exfalso
      unfold consolidate at hc
      dsimp only at hc
      rw [if_neg h1, if_neg h2] at hc
      simp at hc

/-- C3: `consolidate_sum_by_date` is idempotent — a second run on the table
left behind by the first run (the rewritten table when a write happened, the
unchanged table otherwise) writes nothing and reports 0 eliminated rows —
and it is a no-op from the start when no two rows share a coerced date. -/
theorem consolidate_idempotent (t : ConsTable) :
    consolidate ((consolidate t).2.getD t) = (0, none) ∧
    ((consCoerced t).Nodup → consolidate t = (0, none)) := by
  constructor
  · rcases hc : consolidate t with ⟨k, opt⟩
    rcases opt with _ | t2
    · simp only [Option.getD_none]
      exact consolidate_snd_none t (by rw [hc])
    · simp only [Option.getD_some]
      have hlen := consSorted_length_le t
      have h := hc
      unfold consolidate at h
      dsimp only at h
      split at h
      · simp at h
      · split at h
        · simp at h
        · rw [Nat.min_eq_left hlen, List.take_length] at h
          injection h with h1 h2
          injection h2 with h2
          apply consolidate_of_removed_zero
          apply consRemoved_zero_of_nodup
          rw [← h2, consCoerced_written]
          exact (List.perm_insertionSort _ _).nodup_iff.mpr (List.nodup_dedup _)
  · intro h
    exact consolidate_of_removed_zero t (consRemoved_zero_of_nodup t h)

/-- Witness for C3 at concrete tables: a duplicate table whose first-run
output re-consolidates to a no-op, and a duplicate-free table on which the
run is a no-op outright. -/
theorem consolidate_idempotent_witness :
    consolidate ((consolidate ⟨[[.str "2025-01-01"], [.str "2025-01-01"]],
      [[[.int 5], [.int 3]]]⟩).2.getD ⟨[[.str "2025-01-01"], [.str "2025-01-01"]],
      [[[.int 5], [.int 3]]]⟩) = (0, none) ∧
    consolidate ⟨[[.str "2025-01-01"], [.str "2025-01-02"]], [[[.int 5], [.int 3]]]⟩ =
      (0, none) :=
  ⟨(consolidate_idempotent ⟨[[.str "2025-01-01"], [.str "2025-01-01"]],
      [[[.int 5], [.int 3]]]⟩).1,
   (consolidate_idempotent ⟨[[.str "2025-01-01"], [.str "2025-01-02"]],
      [[[.int 5], [.int 3]]]⟩).2 (by decide)⟩

/-! ## Batch-update planner correctness (C1) -/

lemma range'_headD (a n : Nat) : (List.range' a (n + 1)).headD 0 = a := by
  rw [List.range'_succ]
  rfl

lemma range'_getLastD (a n : Nat) : (List.range' a (n + 1)).getLastD 0 = a + n := by
  rw [List.range'_concat, List.getLastD_concat, one_mul]

lemma applyPlan_skip (plan : List ((Nat × Nat) × List (List Cell))) (dataRows : Nat)
    (base : Nat → Nat → Cell) (r c : Nat)
    (h : ∀ u ∈ plan, ¬(r < dataRows ∧ u.1.1 ≤ c ∧ c ≤ u.1.2)) :
    applyPlan plan dataRows base r c = base r c := by
  induction plan generalizing base with
  | nil => rfl
  | cons u rest ih =>
    show applyPlan rest dataRows _ r c = base r c
    rw [ih _ (fun v hv => h v (List.mem_cons_of_mem _ hv))]
    exact if_neg (h u (List.mem_cons_self _ _))

lemma applyPlan_cover (pre post : List ((Nat × Nat) × List (List Cell)))
    (u : (Nat × Nat) × List (List Cell)) (dataRows : Nat) (base : Nat → Nat → Cell)
    (r c : Nat) (hcov : r < dataRows ∧ u.1.1 ≤ c ∧ c ≤ u.1.2)
    (hpost : ∀ v ∈ post, ¬(r < dataRows ∧ v.1.1 ≤ c ∧ c ≤ v.1.2)) :
    applyPlan (pre ++ u :: post) dataRows base r c =
      (u.2.getD r []).getD (c - u.1.1) (.str "") := by
  show List.foldl _ base (pre ++ u :: post) r c = _
  rw [List.foldl_append, List.foldl_cons]
  change applyPlan post dataRows _ r c = _
  rw [applyPlan_skip post dataRows _ r c hpost]
  exact if_pos hcov

lemma addColToGroups_spec (groups : List (List Nat)) (x : Nat)
    (hrun : ∀ g ∈ groups, ∃ a n, g = List.range' a (n + 1))
    (hpw : List.Pairwise (fun g1 g2 => g1.getLastD 0 + 1 < g2.headD 0) groups)
    (hlast : ∀ g ∈ groups.getLast?, g.getLastD 0 < x) :
    (addColToGroups groups x).flatten = groups.flatten ++ [x] ∧
    (∀ g ∈ addColToGroups groups x, ∃ a n, g = List.range' a (n + 1)) ∧
    List.Pairwise (fun g1 g2 => g1.getLastD 0 + 1 < g2.headD 0) (addColToGroups groups x) ∧
    (∀ g ∈ (addColToGroups groups x).getLast?, g.getLastD 0 = x) := by
  rcases hgl : groups.getLast? with _ | g
  · have hemp : groups = [] := List.getLast?_eq_none_iff.mp hgl
    subst hemp
    have hadd : addColToGroups [] x = [[x]] := rfl
    rw [hadd]
    refine ⟨by simp, ?_, by simp, ?_⟩
    · intro g hg
      simp only [List.nil_append, List.mem_singleton] at hg
      subst hg
      exact ⟨x, 0, rfl⟩
    · intro g hg
      simp only [List.nil_append, List.getLast?_singleton, Option.mem_some_iff] at hg
      subst hg
      rfl
  · have hne : groups ≠ [] := by
      intro h
      rw [h] at hgl
      cases hgl
    have hsplit : groups.dropLast ++ [g] = groups := by
      have h2 := List.getLast?_eq_getLast groups hne
      rw [hgl] at h2
      injection h2 with h2
      rw [h2]
      exact List.dropLast_append_getLast hne
    have hgmem : g ∈ groups := by
      rw [← hsplit]
      exact List.mem_append_right _ (List.mem_cons_self _ _)
    obtain ⟨a, n, hgr⟩ := hrun g hgmem
    have hglast : g.getLastD 0 = a + n := by rw [hgr, range'_getLastD]
    have hghead : g.headD 0 = a := by rw [hgr, range'_headD]
    have hxg : g.getLastD 0 < x := hlast g (by rw [hgl]; rfl)
    have hadd : addColToGroups groups x =
        if x = g.getLastD 0 + 1 then groups.dropLast ++ [g ++ [x]]
        else groups ++ [[x]] := by
      unfold addColToGroups
      rw [hgl]
    rw [hadd]
    by_cases hx : x = g.getLastD 0 + 1
    · rw [if_pos hx]
      have hext : g ++ [x] = List.range' a (n + 1 + 1) := by
        rw [List.range'_concat, one_mul, hgr, hx, hglast, Nat.add_assoc]
      refine ⟨?_, ?_, ?_, ?_⟩
      · rw [List.flatten_concat]
        conv_rhs => rw [← hsplit]
        rw [List.flatten_concat, List.append_assoc]
      · intro g2 hg2
        rcases List.mem_append.mp hg2 with h2 | h2
        · exact hrun g2 (by rw [← hsplit]; exact List.mem_append_left _ h2)
        · simp only [List.mem_singleton] at h2
          subst h2
          exact ⟨a, n + 1, hext⟩
      · rw [← hsplit] at hpw
        rw [List.pairwise_append] at hpw ⊢
        refine ⟨hpw.1, by simp, ?_⟩
        intro g1 h1 g2 h2
        simp only [List.mem_singleton] at h2
        subst h2
        have := hpw.2.2 g1 h1 g (List.mem_cons_self _ _)
        have hh : (g ++ [x]).headD 0 = g.headD 0 := by
          rw [hgr]
          rw [show List.range' a (n + 1) ++ [x] = a :: (List.range' (a + 1) n ++ [x]) by
            rw [List.range'_succ]; rfl]
          rfl
        rw [hh]
        exact this
      · intro g2 hg2
        rw [List.getLast?_concat, Option.mem_some_iff] at hg2
        subst hg2
        rw [List.getLastD_concat]
    · rw [if_neg hx]
      refine ⟨by rw [List.flatten_concat], ?_, ?_, ?_⟩
      · intro g2 hg2
        rcases List.mem_append.mp hg2 with h2 | h2
        · exact hrun g2 h2
        · simp only [List.mem_singleton] at h2
          subst h2
          exact ⟨x, 0, rfl⟩
      · rw [List.pairwise_append]
        refine ⟨hpw, by simp, ?_⟩
        intro g1 h1 g2 h2
        simp only [List.mem_singleton] at h2
        subst h2
        show g1.getLastD 0 + 1 < [x].headD 0
        have h1b : g1 ∈ groups.dropLast ++ [g] := by
          rw [hsplit]
          exact h1
        rcases List.mem_append.mp h1b with hd | hd
        · rw [← hsplit, List.pairwise_append] at hpw
          have hgap := hpw.2.2 g1 hd g (List.mem_cons_self _ _)
          obtain ⟨a1, n1, hg1r⟩ := hrun g1 (by rw [← hsplit]; exact List.mem_append_left _ hd)
          show g1.getLastD 0 + 1 < x
          rw [hghead] at hgap
          omega
        · simp only [List.mem_singleton] at hd
          subst hd
          show g1.getLastD 0 + 1 < x
          omega
      · intro g2 hg2
        rw [List.getLast?_concat, Option.mem_some_iff] at hg2
        subst hg2
        rfl

lemma colGroups_go (L : List Nat) (groups : List (List Nat))
    (hchain : List.Chain' (· < ·) L)
    (hrun : ∀ g ∈ groups, ∃ a n, g = List.range' a (n + 1))
    (hpw : List.Pairwise (fun g1 g2 => g1.getLastD 0 + 1 < g2.headD 0) groups)
    (hlast : ∀ x ∈ L.head?, ∀ g ∈ groups.getLast?, g.getLastD 0 < x) :
    (L.foldl addColToGroups groups).flatten = groups.flatten ++ L ∧
    (∀ g ∈ L.foldl addColToGroups groups, ∃ a n, g = List.range' a (n + 1)) ∧
    List.Pairwise (fun g1 g2 => g1.getLastD 0 + 1 < g2.headD 0)
      (L.foldl addColToGroups groups) := by
  induction L generalizing groups with
  | nil => exact ⟨by simp, hrun, hpw⟩
  | cons x xs ih =>
    rw [List.foldl_cons]
    obtain ⟨hg1, hg2, hg3, hg4⟩ :=
      addColToGroups_spec groups x hrun hpw (hlast x (by rfl))
    have hlast2 : ∀ y ∈ xs.head?, ∀ g ∈ (addColToGroups groups x).getLast?,
        g.getLastD 0 < y := by
      intro y hy g hg
      rw [hg4 g hg]
      exact (List.chain'_cons'.mp hchain).1 y hy
    obtain ⟨i1, i2, i3⟩ := ih (addColToGroups groups x) hchain.tail hg2 hg3 hlast2
    refine ⟨?_, i2, i3⟩
    rw [i1, hg1]
    simp

lemma colGroups_spec (L : List Nat) (h : List.Chain' (· < ·) L) :
    (colGroups L).flatten = L ∧
    (∀ g ∈ colGroups L, ∃ a n, g = List.range' a (n + 1)) ∧
    List.Pairwise (fun g1 g2 => g1.getLastD 0 + 1 < g2.headD 0) (colGroups L) := by
  have hgo := colGroups_go L [] h (by simp) (by simp) (by simp)
  simpa [colGroups] using hgo

lemma updateColsOf_chain (ub : List (String × List (Nat × Cell))) :
    List.Chain' (· < ·) (updateColsOf ub) := by
  unfold updateColsOf
  match ub with
  | [] => simp
  | (e, m) :: rest =>
    have hs : List.Sorted (· ≤ ·) (List.insertionSort (· ≤ ·) (m.map Prod.fst).dedup) :=
      List.sorted_insertionSort _ _
    have hn : (List.insertionSort (· ≤ ·) (m.map Prod.fst).dedup).Nodup :=
      (List.perm_insertionSort _ _).nodup_iff.mpr (List.nodup_dedup _)
    exact ((hs.and hn).imp (fun h => lt_of_le_of_ne h.1 h.2)).chain'

lemma plannerMatrix_cell (values : List (List Cell))
    (ub : List (String × List (Nat × Cell))) (rowEmails : List (Option String))
    (dataRows : Nat) (a n r c : Nat)
    (hr : r < dataRows) (hc : a ≤ c) (hcn : c < a + (n + 1)) :
    ((plannerMatrix values ub rowEmails dataRows (List.range' a (n + 1))).getD r []).getD
        (c - a) (.str "") =
      match (plannerRowUpdates ub rowEmails r).bind (fun m => lookupCellUpd m c) with
      | some v => v
      | none => snapCell values r c := by
  have h1 : (plannerMatrix values ub rowEmails dataRows (List.range' a (n + 1))).getD r [] =
      List.map (fun c2 =>
        match (plannerRowUpdates ub rowEmails r).bind (fun m => lookupCellUpd m c2) with
        | some v => v
        | none => cellAt (values.getD (r + 1) []) c2) (List.range' a (n + 1)) := by
    unfold plannerMatrix
    rw [List.getD_eq_getElem _ _ (by simpa using hr), List.getElem_map, List.getElem_range]
  rw [h1]
  rw [List.getD_eq_getElem _ _ (by simp only [List.length_map, List.length_range']; omega)]
  rw [List.getElem_map, List.getElem_range']
  rw [show a + 1 * (c - a) = c by omega]
  rfl

/-- C1: the batch-update planner of the customer sync groups the edited
column indices (the sorted distinct keys of the first edit map) into maximal
runs of consecutive indices, emits one `(first_col, last_col)` range per run
with a matrix spanning all data rows, and — provided every row's edit keys
lie within the planned columns, as the sync's uniform edit maps guarantee —
applying the emitted pairs to the snapshot yields exactly the requested
cells and leaves every other cell at its snapshot value (absent snapshot
cells reading as empty text); a column outside every run is covered by no
emitted range. -/
theorem buildPlan_applyPlan_spec (values : List (List Cell))
    (ub : List (String × List (Nat × Cell))) (rowEmails : List (Option String))
    (dataRows : Nat)
    (hdom : ∀ p ∈ ub, ∀ k ∈ p.2.map Prod.fst, k ∈ updateColsOf ub) :
    (colGroups (updateColsOf ub)).flatten = updateColsOf ub ∧
    (∀ g ∈ colGroups (updateColsOf ub), ∃ a n, g = List.range' a (n + 1)) ∧
    List.Chain' (fun g1 g2 => g1.getLastD 0 + 1 < g2.headD 0)
      (colGroups (updateColsOf ub)) ∧
    buildPlan values ub rowEmails dataRows =
      (colGroups (updateColsOf ub)).map (fun g =>
        ((g.headD 0, g.getLastD 0), plannerMatrix values ub rowEmails dataRows g)) ∧
    (∀ p ∈ buildPlan values ub rowEmails dataRows, p.2.length = dataRows) ∧
    (∀ c, c ∉ updateColsOf ub → ∀ p ∈ buildPlan values ub rowEmails dataRows,
      ¬(p.1.1 ≤ c ∧ c ≤ p.1.2)) ∧
    (∀ r c, applyPlan (buildPlan values ub rowEmails dataRows) dataRows
        (snapCell values) r c =
      if r < dataRows then
        match (plannerRowUpdates ub rowEmails r).bind (fun m => lookupCellUpd m c) with
        | some v => v
        | none => snapCell values r c
      else snapCell values r c) := by
  obtain ⟨hflat, hruns, hpw⟩ := colGroups_spec (updateColsOf ub) (updateColsOf_chain ub)
  have hout : ∀ c, c ∉ updateColsOf ub → ∀ p ∈ buildPlan values ub rowEmails dataRows,
      ¬(p.1.1 ≤ c ∧ c ≤ p.1.2) := by
    intro c hc p hp hcontra
    unfold buildPlan at hp
    obtain ⟨g, hgmem, hgp⟩ := List.mem_map.mp hp
    obtain ⟨a, n, hgr⟩ := hruns g hgmem
    subst hgp
    dsimp only at hcontra
    apply hc
    rw [← hflat]
    refine List.mem_flatten.mpr ⟨g, hgmem, ?_⟩
    rw [hgr, List.mem_range'_1]
    rw [hgr, range'_headD, range'_getLastD] at hcontra
    omega
  have happ : ∀ r c, applyPlan (buildPlan values ub rowEmails dataRows) dataRows
      (snapCell values) r c =
      if r < dataRows then
        match (plannerRowUpdates ub rowEmails r).bind (fun m => lookupCellUpd m c) with
        | some v => v
        | none => snapCell values r c
      else snapCell values r c := by
    intro r c
    by_cases hr : r < dataRows
    · rw [if_pos hr]
      by_cases hcL : c ∈ updateColsOf ub
      · have hcf : c ∈ (colGroups (updateColsOf ub)).flatten := by
          rw [hflat]
          exact hcL
        obtain ⟨g, hgmem, hcg⟩ := List.mem_flatten.mp hcf
        obtain ⟨G1, G2, hdecomp⟩ := List.append_of_mem hgmem
        obtain ⟨a, n, hgr⟩ := hruns g hgmem
        have hcb : a ≤ c ∧ c < a + (n + 1) := List.mem_range'_1.mp (hgr ▸ hcg)
        have hplan : buildPlan values ub rowEmails dataRows =
            G1.map (fun g => ((g.headD 0, g.getLastD 0),
              plannerMatrix values ub rowEmails dataRows g)) ++
            ((g.headD 0, g.getLastD 0), plannerMatrix values ub rowEmails dataRows g) ::
            G2.map (fun g => ((g.headD 0, g.getLastD 0),
              plannerMatrix values ub rowEmails dataRows g)) := by
          unfold buildPlan
          rw [hdecomp, List.map_append, List.map_cons]
        have hpost : ∀ v ∈ G2.map (fun g => ((g.headD 0, g.getLastD 0),
            plannerMatrix values ub rowEmails dataRows g)),
            ¬(r < dataRows ∧ v.1.1 ≤ c ∧ c ≤ v.1.2) := by
          intro v hv hcontra
          obtain ⟨g2, hg2mem, hg2v⟩ := List.mem_map.mp hv
          subst hg2v
          dsimp only at hcontra
          have hpw2 := hpw
          rw [hdecomp, List.pairwise_append] at hpw2
          have hg2g : g.getLastD 0 + 1 < g2.headD 0 :=
            (List.pairwise_cons.mp hpw2.2.1).1 g2 hg2mem
          obtain ⟨a2, n2, hg2r⟩ := hruns g2 (by
            rw [hdecomp]
            exact List.mem_append_right _ (List.mem_cons_of_mem _ hg2mem))
          rw [hgr, range'_getLastD] at hg2g
          rw [hg2r, range'_headD] at hg2g
          rw [hg2r, range'_headD, range'_getLastD] at hcontra
          omega
        have hcov : r < dataRows ∧ g.headD 0 ≤ c ∧ c ≤ g.getLastD 0 := by
          rw [hgr, range'_headD, range'_getLastD]
          exact ⟨hr, by omega, by omega⟩
        rw [hplan]
        rw [applyPlan_cover _ _ _ dataRows _ r c hcov hpost]
        dsimp only
        rw [hgr, range'_headD]
        exact plannerMatrix_cell values ub rowEmails dataRows a n r c hr hcb.1 hcb.2
      · have hnone : (plannerRowUpdates ub rowEmails r).bind
            (fun m => lookupCellUpd m c) = none := by
          rcases hb : plannerRowUpdates ub rowEmails r with _ | m
          · rfl
          · rcases hl : lookupCellUpd m c with _ | v
            · exact hl
            · exfalso
              unfold plannerRowUpdates lookupAssoc at hb
              rw [Option.map_eq_some'] at hb
              obtain ⟨p, hfind, hp2⟩ := hb
              have hpm : p ∈ ub := List.mem_of_find?_eq_some hfind
              unfold lookupCellUpd at hl
              rw [Option.map_eq_some'] at hl
              obtain ⟨q, hqfind, -⟩ := hl
              have hqm : q ∈ m := List.mem_of_find?_eq_some hqfind
              have hqc : q.1 = c := by
                have hps := List.find?_some hqfind
                simpa using hps
              apply hcL
              rw [← hqc]
              exact hdom p hpm q.1 (List.mem_map_of_mem Prod.fst (by
                rw [hp2]
                exact hqm))
        rw [hnone]
        show applyPlan _ _ _ r c = snapCell values r c
        apply applyPlan_skip
        intro u hu hcontra
        exact hout c hcL u hu ⟨hcontra.2.1, hcontra.2.2⟩
    · rw [if_neg hr]
      apply applyPlan_skip
      intro u hu hcontra
      exact hr hcontra.1
  refine ⟨hflat, hruns, hpw.chain', rfl, ?_, hout, happ⟩
  intro p hp
  unfold buildPlan at hp
  obtain ⟨g, hgmem, hgp⟩ := List.mem_map.mp hp
  subst hgp
  simp [plannerMatrix]

/-- A concrete planner instance: two data rows, both edit maps over the key
set {1, 3}. -/
def plannerValsC1 : List (List Cell) :=
  [[.str "E", .str "A", .str "B", .str "C"],
   [.str "x@y", .int 1, .int 2, .int 3],
   [.str "z@w", .int 6, .int 7, .int 8]]

def plannerUbC1 : List (String × List (Nat × Cell)) :=
  [("x@y", [(1, .int 10), (3, .int 30)]), ("z@w", [(3, .int 31), (1, .int 11)])]

def plannerEmailsC1 : List (Option String) := [some "x@y", some "z@w"]

/-- Witness for C1 at the concrete instance: requested cells come out
rewritten, an untouched column keeps its snapshot value, and a row beyond
the data area is untouched. -/
theorem buildPlan_applyPlan_spec_witness :
    applyPlan (buildPlan plannerValsC1 plannerUbC1 plannerEmailsC1 2) 2
      (snapCell plannerValsC1) 0 1 = Cell.int 10 ∧
    applyPlan (buildPlan plannerValsC1 plannerUbC1 plannerEmailsC1 2) 2
      (snapCell plannerValsC1) 1 3 = Cell.int 31 ∧
    applyPlan (buildPlan plannerValsC1 plannerUbC1 plannerEmailsC1 2) 2
      (snapCell plannerValsC1) 0 2 = Cell.int 2 ∧
    applyPlan (buildPlan plannerValsC1 plannerUbC1 plannerEmailsC1 2) 2
      (snapCell plannerValsC1) 2 1 = snapCell plannerValsC1 2 1 := by
  have h := (buildPlan_applyPlan_spec plannerValsC1 plannerUbC1 plannerEmailsC1 2
    (by decide)).2.2.2.2.2.2
  refine ⟨?_, ?_, ?_, ?_⟩
  · rw [h 0 1]
    decide
  · rw [h 1 3]
    decide
  · rw [h 0 2]
    decide
  · rw [h 2 1]
    decide
